import Mathlib

/-!
Verification development for the wandb python-reference documentation
pipeline.  The Python sources are shallowly embedded: strings are lists of
characters, every regular-expression substitution of the sources is
translated into an explicit scanning function with the exact
leftmost-match / lazy-star / greedy-star backtracking semantics of the
original pattern, and filesystem state is an association list from path
strings to file contents.
-/

set_option maxRecDepth 10000

/-- Strings are modelled as lists of characters. -/
abbrev Chars := List Char

/-- Coerce a Lean string literal to the character-list model. -/
def lit (s : String) : Chars := s.data

/-- Consume a literal prefix: `takeLit needle s` returns the rest of `s`
after `needle` when `needle` is a prefix of `s`. -/
def takeLit : Chars → Chars → Option Chars
  | [], s => some s
  | _ :: _, [] => none
  | n :: ns, c :: cs => if c = n then takeLit ns cs else none

/-- Boolean test that `needle` is a prefix of `s`. -/
def startsWithL (needle s : Chars) : Bool := (takeLit needle s).isSome

/-- Boolean substring test, the embedding of Python's `token in text`. -/
def containsSub (needle : Chars) : Chars → Bool
  | [] => needle.isEmpty
  | s@(_ :: cs) => startsWithL needle s || containsSub needle cs

/-- Earliest occurrence split: `splitAtSub needle s = some (pre, post)`
where `pre` is the text before the first occurrence of `needle` and `post`
the text after it.  This is the semantics of a lazy `.*?` (with DOTALL)
followed by the literal `needle`. -/
def splitAtSub (needle : Chars) : Chars → Option (Chars × Chars)
  | [] => match takeLit needle [] with
    | some r => some ([], r)
    | none => none
  | s@(c :: cs) => match takeLit needle s with
    | some r => some ([], r)
    | none => (splitAtSub needle cs).map (fun p => (c :: p.1, p.2))

/-- Earliest occurrence split where the skipped text may not contain a
newline: the semantics of a lazy `.*?` without DOTALL followed by
`needle`. -/
def splitAtSubNoNL (needle : Chars) : Chars → Option (Chars × Chars)
  | [] => match takeLit needle [] with
    | some r => some ([], r)
    | none => none
  | s@(c :: cs) => match takeLit needle s with
    | some r => some ([], r)
    | none =>
      if c = '\n' then none
      else (splitAtSubNoNL needle cs).map (fun p => (c :: p.1, p.2))

/-- Scan for the earliest suffix satisfying `p`; returns the consumed
prefix and that suffix.  This is a lazy `[\s\S]*?` followed by a
lookahead with predicate `p`. -/
def takeUntilSfx (p : Chars → Bool) : Chars → Option (Chars × Chars)
  | [] => if p [] then some ([], []) else none
  | c :: cs =>
    if p (c :: cs) then some ([], c :: cs)
    else (takeUntilSfx p cs).map (fun q => (c :: q.1, q.2))

/-- Python `\w`: letters, digits and underscore (ASCII fragment). -/
def isWordChar (c : Char) : Bool := c.isAlphanum || c = '_'

/-- Python `\s`: the six ASCII whitespace characters. -/
def isPySpace (c : Char) : Bool :=
  c = ' ' || c = '\t' || c = '\n' || c = '\r' || c = '\x0b' || c = '\x0c'

/-- Last character of a chunk is a newline (used to propagate the
beginning-of-line flag across a replaced match). -/
def endsNL (m : Chars) : Bool := m.getLast? = some '\n'

/-- One substitution attempt: given the beginning-of-line flag and the
remaining text, produce `(matched, replacement, rest)` for a match
starting exactly here, or `none`. -/
abbrev SubTry := Bool → Chars → Option (Chars × Chars × Chars)

/-- The scanning loop of `re.sub`: at each position try the pattern; on a
match emit the replacement and continue after the match (replacements are
not rescanned), otherwise emit one character and advance. -/
def subScan (t : SubTry) : Nat → Bool → Chars → Chars
  | 0, _, s => s
  | fuel + 1, bol, s =>
    match t bol s with
    | some (m, r, rest) => r ++ subScan t fuel (endsNL m) rest
    | none =>
      match s with
      | [] => []
      | c :: cs => c :: subScan t fuel (c = '\n') cs

/-- Run a substitution over a whole text (position 0 is a line start). -/
def runSub (t : SubTry) (s : Chars) : Chars := subScan t (s.length + 1) true s

/-- Count the matches a pattern produces during one `re.sub`-style scan. -/
def countScan (t : SubTry) : Nat → Bool → Chars → Nat
  | 0, _, _ => 0
  | fuel + 1, bol, s =>
    match t bol s with
    | some (m, _, rest) => countScan t fuel (endsNL m) rest + 1
    | none =>
      match s with
      | [] => 0
      | c :: cs => countScan t fuel (c = '\n') cs

/-- Number of matches of a pattern in a text. -/
def countMatches (t : SubTry) (s : Chars) : Nat := countScan t (s.length + 1) true s

/-! ### MarkdownCleaner (process_sdk_markdown.py): the six simple rules -/

/-- Rule 1 of `MarkdownCleaner.patterns`:
`<a\b[^>]*>(.*?)</a>` (DOTALL) replaced by the inner text `\1`. -/
def tryAnchorTag : SubTry := fun _ s =>
  match takeLit (lit "<a") s with
  | none => none
  | some r1 =>
    let bOk : Bool := match r1 with
      | [] => true
      | c :: _ => !(isWordChar c)
    if bOk then
      match splitAtSub (lit ">") r1 with
      | none => none
      | some (attrs, r2) =>
        match splitAtSub (lit "</a>") r2 with
        | none => none
        | some (inner, rest) =>
          some (lit "<a" ++ attrs ++ '>' :: inner ++ lit "</a>", inner, rest)
    else none

/-- Python `\w` or a dot, the character class `[\w\.]`. -/
def isWordDot (c : Char) : Bool := isWordChar c || c = '.'

/-- Rule 2 of `MarkdownCleaner.patterns`:
`(# <kbd>module</kbd> `[\w\.]+)\.[\w]+`` replaced by `\1``: the maximal
word-and-dot run after the literal must end with `.word`, which is
stripped. -/
def tryModuleName : SubTry := fun _ s =>
  match takeLit (lit "# <kbd>module</kbd> `") s with
  | none => none
  | some r =>
    let run := r.takeWhile isWordDot
    let r' := r.dropWhile isWordDot
    match r' with
    | '`' :: rest =>
      let w := (run.reverse.takeWhile isWordChar).reverse
      let pre := run.take (run.length - w.length)
      if w.isEmpty then none
      else if pre.getLast? = some '.' ∧ 2 ≤ pre.length then
        some (lit "# <kbd>module</kbd> `" ++ run ++ ['`'],
              lit "# <kbd>module</kbd> `" ++ pre.dropLast ++ ['`'], rest)
      else none
    | _ => none

/-- Negative-lookahead stop of the Global Variables banner:
positions starting `## ` or `# <kbd>` may not be consumed. -/
def gvStop (s : Chars) : Bool :=
  startsWithL (lit "## ") s || startsWithL (lit "# <kbd>") s

/-- Length of the maximal prefix every position of which passes the
`(?!## |# <kbd>)` lookahead. -/
def allowedLen : Chars → Nat
  | [] => 0
  | s@(_ :: cs) => if gvStop s then 0 else allowedLen cs + 1

/-- Greatest index `k ≤ bound` with `s[k] = '\n'`, the backtracking of a
greedy star followed by a literal newline. -/
def lastNLUpTo (s : Chars) : Nat → Option Nat
  | 0 => if s.head? = some '\n' then some 0 else none
  | b + 1 => if s.getD (b + 1) ' ' = '\n' then some (b + 1) else lastNLUpTo s b

/-- Rule 3 of `MarkdownCleaner.patterns`:
`\*\*Global Variables\*\*\n[-]+\n(?:(?!## |# <kbd>)[\s\S])*\n` removed. -/
def tryGlobalVars : SubTry := fun _ s =>
  match takeLit (lit "**Global Variables**\n") s with
  | none => none
  | some r =>
    let dashes := r.takeWhile (· = '-')
    let r1 := r.dropWhile (· = '-')
    if dashes.isEmpty then none
    else
      match r1 with
      | '\n' :: r2 =>
        match lastNLUpTo r2 (allowedLen r2) with
        | none => none
        | some k =>
          some (lit "**Global Variables**\n" ++ dashes ++ '\n' :: r2.take (k + 1),
                [], r2.drop (k + 1))
      | _ => none

/-- Rule 4 of `MarkdownCleaner.patterns`: `<b>(.*?)</b>` (no DOTALL)
replaced by the inner text. -/
def tryBoldTag : SubTry := fun _ s =>
  match takeLit (lit "<b>") s with
  | none => none
  | some r =>
    match splitAtSubNoNL (lit "</b>") r with
    | none => none
    | some (inner, rest) =>
      some (lit "<b>" ++ inner ++ lit "</b>", inner, rest)

/-- Rule 5 of `MarkdownCleaner.patterns`: the lazydocs footer
`---\n+_This file was automatically generated via \[lazydocs\]\([^)]+\)._\n*`
removed. -/
def tryFooter : SubTry := fun _ s =>
  match takeLit (lit "---") s with
  | none => none
  | some r =>
    let nls := r.takeWhile (· = '\n')
    let r1 := r.dropWhile (· = '\n')
    if nls.isEmpty then none
    else
      match takeLit (lit "_This file was automatically generated via [lazydocs](") r1 with
      | none => none
      | some r2 =>
        match splitAtSub (lit ")") r2 with
        | none => none
        | some (url, r3) =>
          if url.isEmpty then none
          else
            match r3 with
            | c :: '_' :: r4 =>
              if c = '\n' then none
              else
                let tnl := r4.takeWhile (· = '\n')
                some (lit "---" ++ nls ++
                        lit "_This file was automatically generated via [lazydocs](" ++
                        url ++ ')' :: c :: '_' :: tnl,
                      [], r4.dropWhile (· = '\n'))
            | _ => none

/-- Rule 6 of `MarkdownCleaner.patterns`: `####\s*` replaced by `### `. -/
def tryHeading4 : SubTry := fun _ s =>
  match takeLit (lit "####") s with
  | none => none
  | some r =>
    some (lit "####" ++ r.takeWhile isPySpace, lit "### ", r.dropWhile isPySpace)

/-! ### MarkdownCleaner: the large block patterns -/

/-- Shared lookahead `(?=\n## |\n### |\Z)` of the block patterns. -/
def bigStop (s : Chars) : Bool :=
  startsWithL (lit "\n## ") s || startsWithL (lit "\n### ") s || s.isEmpty

/-- Earliest index holding character `c` whose suffix afterwards satisfies
`p`; returns the consumed prefix and the rest after `c`.  This is a lazy
`.*?` followed by the single character `c` and a lookahead `p`. -/
def findCharThen (c : Char) (p : Chars → Bool) : Chars → Option (Chars × Chars)
  | [] => none
  | x :: xs =>
    if x = c ∧ p xs then some ([], xs)
    else (findCharThen c p xs).map (fun q => (x :: q.1, q.2))

/-- First alternative of `block_pattern`: `## <kbd>class</kbd> `.*?``
followed by the shared lookahead. -/
def tryBlockClassAlt (s : Chars) : Option (Chars × Chars) :=
  match takeLit (lit "## <kbd>class</kbd> `") s with
  | none => none
  | some r =>
    match findCharThen '`' bigStop r with
    | none => none
    | some (c1, rest) =>
      some (lit "## <kbd>class</kbd> `" ++ c1 ++ ['`'], rest)

/-- Common shape `HDR .*? `\n\n```python\n .*? \n```\n\n .*?` followed by
the stop lookahead: the two inner lazy stars resolve to the earliest
occurrences of their following literals, the final lazy star to the
earliest stop position (which always exists since end-of-text stops). -/
def tryCodeBlockShape (hdr : Chars) (stop : Chars → Bool) (s : Chars) :
    Option (Chars × Chars) :=
  match takeLit hdr s with
  | none => none
  | some r =>
    match splitAtSub (lit "`\n\n```python\n") r with
    | none => none
    | some (c1, r1) =>
      match splitAtSub (lit "\n```\n\n") r1 with
      | none => none
      | some (c2, r2) =>
        match takeUntilSfx stop r2 with
        | none => none
        | some (c3, rest) =>
          some (hdr ++ c1 ++ lit "`\n\n```python\n" ++ c2 ++ lit "\n```\n\n" ++ c3,
                rest)

/-- Second alternative of `block_pattern`:
`### <kbd>(?:method|function)</kbd> `.*?`\n\n```python\n.*?\n```\n\n.*?`. -/
def tryBlockCodeAlt (s : Chars) : Option (Chars × Chars) :=
  match tryCodeBlockShape (lit "### <kbd>method</kbd> `") bigStop s with
  | some m => some m
  | none => tryCodeBlockShape (lit "### <kbd>function</kbd> `") bigStop s

/-- Third alternative of `block_pattern`: `### <kbd>property</kbd> .*?\n\n.*?`. -/
def tryBlockPropertyAlt (s : Chars) : Option (Chars × Chars) :=
  match takeLit (lit "### <kbd>property</kbd> ") s with
  | none => none
  | some r =>
    match splitAtSub (lit "\n\n") r with
    | none => none
    | some (c1, r1) =>
      match takeUntilSfx bigStop r1 with
      | none => none
      | some (c2, rest) =>
        some (lit "### <kbd>property</kbd> " ++ c1 ++ lit "\n\n" ++ c2, rest)

/-- Embeds `MarkdownCleaner.block_pattern`, ordered alternation of the three
block shapes. -/
def tryBlockPat (s : Chars) : Option (Chars × Chars) :=
  match tryBlockClassAlt s with
  | some m => some m
  | none =>
    match tryBlockCodeAlt s with
    | some m => some m
    | none => tryBlockPropertyAlt s

/-- Lookahead `(?=\n## <kbd>class</kbd>|$)` of `class_pattern`; without
MULTILINE, `$` also matches just before a final newline. -/
def classStop (s : Chars) : Bool :=
  startsWithL (lit "\n## <kbd>class</kbd>") s || s.isEmpty || s = ['\n']

/-- Embeds `MarkdownCleaner.class_pattern`:
`## <kbd>class</kbd> `.*?`.*?(?=\n## <kbd>class</kbd>|$)`. -/
def tryClassPat (s : Chars) : Option (Chars × Chars) :=
  match takeLit (lit "## <kbd>class</kbd> `") s with
  | none => none
  | some r =>
    match splitAtSub (lit "`") r with
    | none => none
    | some (c1, r1) =>
      match takeUntilSfx classStop r1 with
      | none => none
      | some (c2, rest) =>
        some (lit "## <kbd>class</kbd> `" ++ c1 ++ '`' :: c2, rest)

/-- Lookahead `(?=\n## |\Z)` of `function_pattern`. -/
def funStop (s : Chars) : Bool := startsWithL (lit "\n## ") s || s.isEmpty

/-- Embeds `MarkdownCleaner.function_pattern`:
`## <kbd>function</kbd> `.*?`\n\n```python\n.*?\n```\n\n.*?(?=\n## |\Z)`. -/
def tryFunctionPat (s : Chars) : Option (Chars × Chars) :=
  tryCodeBlockShape (lit "## <kbd>function</kbd> `") funStop s

/-- Embeds `MarkdownCleaner.classmethod_pattern`:
`### <kbd>classmethod</kbd> `.*?`\n\n```python\n.*?\n```\n\n.*?` with the
shared lookahead. -/
def tryClassmethodPat (s : Chars) : Option (Chars × Chars) :=
  tryCodeBlockShape (lit "### <kbd>classmethod</kbd> `") bigStop s

/-- Embeds `MarkdownCleaner.init_pattern`: the ignore-init marker, whitespace,
then a `method` block whose name contains `__init__`. -/
def tryInitPat (s : Chars) : Option (Chars × Chars) :=
  match takeLit (lit "<!-- lazydoc-ignore-init: internal -->") s with
  | none => none
  | some r0 =>
    let sp := r0.takeWhile isPySpace
    let r1 := r0.dropWhile isPySpace
    match takeLit (lit "### <kbd>method</kbd> `") r1 with
    | none => none
    | some r2 =>
      match splitAtSub (lit "__init__") r2 with
      | none => none
      | some (a1, r3) =>
        match splitAtSub (lit "`\n\n```python\n") r3 with
        | none => none
        | some (a2, r4) =>
          match splitAtSub (lit "\n```\n\n") r4 with
          | none => none
          | some (a3, r5) =>
            match takeUntilSfx bigStop r5 with
            | none => none
            | some (a4, rest) =>
              some (lit "<!-- lazydoc-ignore-init: internal -->" ++ sp ++
                      lit "### <kbd>method</kbd> `" ++ a1 ++ lit "__init__" ++
                      a2 ++ lit "`\n\n```python\n" ++ a3 ++ lit "\n```\n\n" ++ a4,
                    rest)

/-- Up to three spaces followed by `- `: the alternative ` {0,3}- ` inside
the attribute-bullet lookahead. -/
def bulletAfterSpaces (s : Chars) : Bool :=
  startsWithL (lit "- ") s || startsWithL (lit " - ") s ||
    startsWithL (lit "  - ") s || startsWithL (lit "   - ") s

/-- Lookahead `(?=\n {0,3}- |\n## |\n### |\Z)` of `attr_block_pattern`. -/
def attrStop (s : Chars) : Bool :=
  s.isEmpty || startsWithL (lit "\n## ") s || startsWithL (lit "\n### ") s ||
    (match s with
     | '\n' :: r => bulletAfterSpaces r
     | _ => false)

/-- Embeds `MarkdownCleaner.attr_block_pattern`:
`(?sm)^( {0,3}- .*?)(?=\n {0,3}- |\n## |\n### |\Z)`, anchored at a line
start by the MULTILINE `^`. -/
def tryAttrBullet (bol : Bool) (s : Chars) : Option (Chars × Chars) :=
  if bol then
    let sp := s.takeWhile (· = ' ')
    if sp.length ≤ 3 then
      match takeLit (lit "- ") (s.drop sp.length) with
      | none => none
      | some r =>
        match takeUntilSfx attrStop r with
        | none => none
        | some (c1, rest) => some (sp ++ lit "- " ++ c1, rest)
    else none
  else none

/-- Wrap a position matcher into the `keep_or_drop` replacement of
`MarkdownCleaner._remove_ignored_blocks`: a matched block is dropped
exactly when it contains the marker token. -/
def mkKeepDrop (token : Chars) (t : Chars → Option (Chars × Chars)) : SubTry :=
  fun _ s => (t s).map (fun m => (m.1, if containsSub token m.1 then [] else m.1, m.2))

/-- Wrap a position matcher whose matches are always deleted
(`pattern.sub("", text)`). -/
def mkDelete (t : Chars → Option (Chars × Chars)) : SubTry :=
  fun _ s => (t s).map (fun m => (m.1, [], m.2))

/-- The keep-or-drop variant of the attribute-bullet pattern (it needs the
beginning-of-line flag). -/
def mkKeepDropBol (token : Chars) (t : Bool → Chars → Option (Chars × Chars)) :
    SubTry :=
  fun bol s =>
    (t bol s).map (fun m => (m.1, if containsSub token m.1 then [] else m.1, m.2))

/-- Embeds `MarkdownCleaner._remove_ignored_blocks` specialised to one pattern
and marker token. -/
def removeIgnoredBlocks (token : Chars) (t : Chars → Option (Chars × Chars))
    (s : Chars) : Chars :=
  runSub (mkKeepDrop token t) s

/-! ### MarkdownCleaner: `_move_init_before_args` -/

/-- Group 4 of the reorder pattern:
`\n### <kbd>method</kbd> `[^`]*__init__[^`]*`\n+```python\n__init__\([\s\S]*?\n```` —
the backtick-free method name must contain `__init__`, then one or more
newlines, then the `__init__(` code fence up to the earliest `\n```. -/
def tryInitMethodG4 (s : Chars) : Option (Chars × Chars) :=
  match takeLit (lit "\n### <kbd>method</kbd> `") s with
  | none => none
  | some r =>
    match splitAtSub (lit "`") r with
    | none => none
    | some (nm, r1) =>
      if containsSub (lit "__init__") nm then
        let nls := r1.takeWhile (· = '\n')
        let r2 := r1.dropWhile (· = '\n')
        if nls.isEmpty then none
        else
          match takeLit (lit "```python\n__init__(") r2 with
          | none => none
          | some r3 =>
            match splitAtSub (lit "\n```") r3 with
            | none => none
            | some (body, r4) =>
              some (lit "\n### <kbd>method</kbd> `" ++ nm ++ '`' :: nls ++
                      lit "```python\n__init__(" ++ body ++ lit "\n```", r4)
      else none

/-- Scan of the optional Returns group followed by group 4: lazy
`[\s\S]*?` positions tried from the shortest. -/
def retThenInitScan : Chars → Option (Chars × Chars × Chars)
  | [] =>
    match tryInitMethodG4 [] with
    | some (g4, rest) => some ([], g4, rest)
    | none => none
  | c :: cs =>
    match tryInitMethodG4 (c :: cs) with
    | some (g4, rest) => some ([], g4, rest)
    | none =>
      (retThenInitScan cs).map (fun q => (c :: q.1, q.2.1, q.2.2))

/-- After `\n\*\*Args:\*\*`: the lazy group-2 tail, then the optional
(greedily preferred) Returns group with its own lazy tail, then the
`__init__` method block. Returns `(g2tail, g3, g4, rest)`. -/
def afterArgsScan : Chars → Option (Chars × Chars × Chars × Chars)
  | [] =>
    match takeLit (lit "\n**Returns:**") [] with
    | some _ => none
    | none =>
      match tryInitMethodG4 [] with
      | some (g4, rest) => some ([], [], g4, rest)
      | none => none
  | c :: cs =>
    let s := c :: cs
    match takeLit (lit "\n**Returns:**") s with
    | some r =>
      match retThenInitScan r with
      | some (g3tail, g4, rest) =>
        some ([], lit "\n**Returns:**" ++ g3tail, g4, rest)
      | none =>
        match tryInitMethodG4 s with
        | some (g4, rest) => some ([], [], g4, rest)
        | none => (afterArgsScan cs).map (fun q => (c :: q.1, q.2))
    | none =>
      match tryInitMethodG4 s with
      | some (g4, rest) => some ([], [], g4, rest)
      | none => (afterArgsScan cs).map (fun q => (c :: q.1, q.2))

/-- Iterate the occurrences of `\n\*\*Args:\*\*` (the group-1 lazy tail)
until the rest of the pattern succeeds; fuel bounds the recursion. -/
def argsScan : Nat → Chars → Option (Chars × Chars × Chars × Chars × Chars)
  | 0, _ => none
  | fuel + 1, r =>
    match splitAtSub (lit "\n**Args:**") r with
    | none => none
    | some (p, a) =>
      match afterArgsScan a with
      | some (g2tail, g3, g4, rest) => some (p, g2tail, g3, g4, rest)
      | none =>
        (argsScan fuel a).map
          (fun q => (p ++ lit "\n**Args:**" ++ q.1, q.2))

/-- Python `str.rstrip()` over the embedded whitespace class. -/
def rstripL (s : Chars) : Chars := (s.reverse.dropWhile isPySpace).reverse

/-- The reorder pattern of `MarkdownCleaner._move_init_before_args`
together with the `reorder_match` replacement: class header (rstripped),
then the `__init__` block, then the Args and optional Returns sections. -/
def tryMoveInitPat : SubTry := fun _ s =>
  match takeLit (lit "## <kbd>class</kbd> `") s with
  | none => none
  | some r0 =>
    match splitAtSub (lit "`") r0 with
    | none => none
    | some (nm, r1) =>
      if nm.isEmpty then none
      else
        match argsScan (r1.length + 1) r1 with
        | none => none
        | some (pre, g2tail, g3, g4, rest) =>
          let g1 := lit "## <kbd>class</kbd> `" ++ nm ++ '`' :: pre
          let g2 := lit "\n**Args:**" ++ g2tail
          some (g1 ++ g2 ++ g3 ++ g4,
                rstripL g1 ++ '\n' :: g4 ++ '\n' :: g2 ++ g3, rest)

/-! ### MarkdownCleaner: the full `clean_text` chain -/

/-- Inline marker `<!-- lazydoc-ignore: internal -->`. -/
def tokIgnore : Chars := lit "<!-- lazydoc-ignore: internal -->"

/-- Inline marker `<!-- lazydoc-ignore-class: internal -->`. -/
def tokIgnoreClass : Chars := lit "<!-- lazydoc-ignore-class: internal -->"

/-- Inline marker `<!-- lazydoc-ignore-function: internal -->`. -/
def tokIgnoreFunction : Chars := lit "<!-- lazydoc-ignore-function: internal -->"

/-- Inline marker `<!-- lazydoc-ignore-classmethod: internal -->`. -/
def tokIgnoreClassmethod : Chars := lit "<!-- lazydoc-ignore-classmethod: internal -->"

/-- Inline marker `<!-- lazydoc-ignore-class-attributes -->`. -/
def tokIgnoreAttrs : Chars := lit "<!-- lazydoc-ignore-class-attributes -->"

/-- Embeds `MarkdownCleaner.clean_text`: the six simple substitutions in order,
the four keep-or-drop block removals, the ignored-`__init__` removal, the
flagged attribute bullets, and finally the `__init__`-before-Args
reordering. -/
def cleanText (s : Chars) : Chars :=
  let s1 := runSub tryAnchorTag s
  let s2 := runSub tryModuleName s1
  let s3 := runSub tryGlobalVars s2
  let s4 := runSub tryBoldTag s3
  let s5 := runSub tryFooter s4
  let s6 := runSub tryHeading4 s5
  let s7 := removeIgnoredBlocks tokIgnore tryBlockPat s6
  let s8 := removeIgnoredBlocks tokIgnoreClass tryClassPat s7
  let s9 := removeIgnoredBlocks tokIgnoreFunction tryFunctionPat s8
  let s10 := removeIgnoredBlocks tokIgnoreClassmethod tryClassmethodPat s9
  let s11 := runSub (mkDelete tryInitPat) s10
  let s12 := runSub (mkKeepDropBol tokIgnoreAttrs tryAttrBullet) s11
  runSub tryMoveInitPat s12

/-! ### post_process_markdown.py: `alphabetize_headings` -/

/-- Python `str.strip()` over the embedded whitespace class. -/
def stripL (s : Chars) : Chars :=
  ((s.dropWhile isPySpace).reverse.dropWhile isPySpace).reverse

/-- The scan of `re.split(r'(?=---)', s)`: a zero-width split point at
every position where `---` starts (checked once per position, advancing
one character after each check). -/
def splitBeforeGo (needle : Chars) (acc : Chars) : Chars → List Chars
  | [] => [acc.reverse]
  | c :: cs =>
    if startsWithL needle (c :: cs) then acc.reverse :: splitBeforeGo needle [c] cs
    else splitBeforeGo needle (c :: acc) cs

/-- Embeds `re.split` on the zero-width lookahead `(?=needle)`. -/
def splitBefore (needle s : Chars) : List Chars := splitBeforeGo needle [] s

/-- Embeds `re.search` of `h2_pattern = ## <kbd>class</kbd> `([^`]+)``: leftmost
position where the literal is followed by a non-empty backtick-free name
and a closing backtick; yields the name. -/
def findH2Name : Chars → Option Chars
  | [] => none
  | c :: cs =>
    match takeLit (lit "## <kbd>class</kbd> `") (c :: cs) with
    | some r =>
      let nm := r.takeWhile (· ≠ '`')
      if nm.isEmpty then findH2Name cs
      else
        match r.dropWhile (· ≠ '`') with
        | '`' :: _ => some nm
        | _ => findH2Name cs
    | none => findH2Name cs

/-- The grouping loop of `alphabetize_headings`: blocks with an H2
heading start a section, other blocks extend the current section, blocks
before the first section are dropped. -/
def gatherSecs : List Chars → Option (Chars × Chars) → List (Chars × Chars) →
    List (Chars × Chars)
  | [], cur, acc =>
    match cur with
    | some c => acc ++ [c]
    | none => acc
  | b :: bs, cur, acc =>
    match findH2Name b with
    | some nm =>
      match cur with
      | some c => gatherSecs bs (some (nm, b)) (acc ++ [c])
      | none => gatherSecs bs (some (nm, b)) acc
    | none =>
      match cur with
      | some c => gatherSecs bs (some (c.1, c.2 ++ b)) acc
      | none => gatherSecs bs none acc

/-- Strict lexicographic comparison of character lists by code point,
Python's `<` on strings. -/
def lexLt : Chars → Chars → Bool
  | [], [] => false
  | [], _ :: _ => true
  | _ :: _, [] => false
  | a :: as, b :: bs =>
    if a.toNat < b.toNat then true
    else if b.toNat < a.toNat then false
    else lexLt as bs

/-- Stable insertion: a new element goes after all existing elements that
do not compare strictly greater. -/
def insertSec (x : Chars × Chars) : List (Chars × Chars) → List (Chars × Chars)
  | [] => [x]
  | y :: ys => if lexLt x.1 y.1 then x :: y :: ys else y :: insertSec x ys

/-- Stable ascending sort by section name, the `sections.sort(key=...)`
call (Python's sort is stable). -/
def sortSecs (l : List (Chars × Chars)) : List (Chars × Chars) :=
  l.foldl (fun acc x => insertSec x acc) []

/-- Python `sep.join(parts)`. -/
def joinSep (sep : Chars) : List Chars → Chars
  | [] => []
  | [x] => x
  | x :: y :: ys => x ++ sep ++ joinSep sep (y :: ys)

/-- Embeds `alphabetize_headings`: split the module docstring off at the first
`---`, split the remainder into blocks before every `---`, group blocks
into class sections, sort the sections by class name, and rebuild the
document as stripped docstring, a blank line, and the sorted sections
joined by blank lines. -/
def alphabetizeHeadings (s : Chars) : Chars :=
  match splitAtSub (lit "---") s with
  | some (p0, p1) =>
    stripL p0 ++
      (lit "\n\n" ++
        joinSep (lit "\n\n")
          ((sortSecs (gatherSecs (splitBefore (lit "---") (lit "---" ++ p1)) none [])).map
            (·.2)))
  | none =>
    stripL s ++
      (lit "\n\n" ++
        joinSep (lit "\n\n")
          ((sortSecs (gatherSecs (splitBefore (lit "---") []) none [])).map (·.2)))

/-! ### post_process.py: frontmatter extraction and duplicate routing -/

/-- Result of `yaml.safe_load` on the inputs that occur here: a flat
`key: value` mapping, a non-mapping scalar, or nothing. -/
inductive YamlValue where
  | mapping (entries : List (Chars × Chars)) : YamlValue
  | scalar (text : Chars) : YamlValue
  | null : YamlValue
deriving DecidableEq, Repr

/-- Split a list at the first occurrence of one character. -/
def splitAtChar (c : Char) : Chars → Option (Chars × Chars)
  | [] => none
  | x :: xs =>
    if x = c then some ([], xs)
    else (splitAtChar c xs).map (fun p => (x :: p.1, p.2))

/-- Split into lines at every newline (Python `str.splitlines` on texts
without exotic terminators). -/
def splitLines : Chars → List Chars
  | [] => [[]]
  | c :: cs =>
    if c = '\n' then [] :: splitLines cs
    else
      match splitLines cs with
      | [] => [[c]]
      | l :: ls => (c :: l) :: ls

/-- Model of `yaml.safe_load` restricted to the flat documents produced
by the pipeline: empty input loads to nothing, a document whose non-blank
lines all have the form `key: value` loads to a mapping, and anything
else (for example a bare word) loads to a non-mapping scalar. -/
def yamlLoad (s : Chars) : YamlValue :=
  if s.isEmpty then .null
  else
    let ls := (splitLines s).filter (fun l => !(stripL l).isEmpty)
    let parsed := ls.map (fun l =>
      match splitAtChar ':' l with
      | some (k, v) => some (stripL k, stripL v)
      | none => none)
    if parsed.all (·.isSome) then .mapping (parsed.filterMap id)
    else .scalar (stripL s)

/-- Embeds `extract_frontmatter`: `none` as input models an unreadable file (the
`except` branch).  The file must start with `---`; the closing `---` is
searched from index 3; the text between is stripped and loaded, a null
load is replaced by the empty mapping (`or {}`); every failure path
returns the empty mapping. -/
def extractFrontmatter (file : Option Chars) : YamlValue :=
  match file with
  | none => .mapping []
  | some content =>
    match takeLit (lit "---") content with
    | none => .mapping []
    | some rest =>
      match splitAtSub (lit "---") rest with
      | none => .mapping []
      | some (between, _) =>
        match yamlLoad (stripL between) with
        | .null => .mapping []
        | v => v

/-- Python `dict.get(key, '')` on a loaded frontmatter; a non-mapping
value has no `get` attribute, which the sources do not guard
(`AttributeError`), so the result is an `Option`. -/
def fmGet (v : YamlValue) (key : Chars) : Option Chars :=
  match v with
  | .mapping m =>
    some ((m.lookup key).getD [])
  | _ => none

/-- Model of `os.path.splitext` (also `Path.stem` / `Path.suffix`):
split a file name at its last dot. -/
def splitExtL (name : Chars) : Chars × Chars :=
  let afterDot := name.reverse.takeWhile (· ≠ '.')
  if afterDot.length = name.length then (name, [])
  else
    let stemLen := name.length - afterDot.length - 1
    -- os.path.splitext: no extension when every character before the last
    -- dot is itself a dot (leading-dot filenames)
    if (name.take stemLen).all (· = '.') then (name, [])
    else (name.take stemLen, name.drop stemLen)

/-- Embeds `clean_filename`: cut the name at the first `_wandb` and re-attach
the extension; names without `_wandb` are unchanged. -/
def cleanFilename (name : Chars) : Chars :=
  match splitAtSub (lit "_wandb") name with
  | none => name
  | some (base, _) => base ++ (splitExtL name).2

/-- Decimal digit characters. -/
def digitChar (d : Nat) : Char :=
  match d with
  | 0 => '0' | 1 => '1' | 2 => '2' | 3 => '3' | 4 => '4'
  | 5 => '5' | 6 => '6' | 7 => '7' | 8 => '8' | _ => '9'

/-- Digit loop of the decimal printer (fuel-structural so that it
evaluates in the kernel); most significant digit first. -/
def natReprAux : Nat → Nat → Chars
  | 0, _ => []
  | fuel + 1, n => if n = 0 then [] else natReprAux fuel (n / 10) ++ [digitChar (n % 10)]

/-- Decimal representation of a natural number, Python's `str(n)` for the
numeric disambiguator. -/
def natRepr (n : Nat) : Chars :=
  if n = 0 then ['0'] else natReprAux n n

/-- The filesystem of one destination directory: an association list from
file names to file contents. -/
abbrev DirFS := List (Chars × Chars)

/-- Names present in the directory. -/
def fsNames (fs : DirFS) : List Chars := fs.map (·.1)

/-- Content lookup, first match. -/
def fsGet (fs : DirFS) (p : Chars) : Option Chars :=
  match fs with
  | [] => none
  | (q, c) :: t => if q = p then some c else fsGet t p

/-- Remove a file (the first entry with the given name), `Path.unlink`. -/
def fsErase (fs : DirFS) (p : Chars) : DirFS :=
  match fs with
  | [] => []
  | (q, c) :: t => if q = p then t else (q, c) :: fsErase t p

/-- The numbered candidate `f"{stem}_{counter}{suffix}"` built by
`get_unique_filename`. -/
def numberedName (base : Chars) (k : Nat) : Chars :=
  (splitExtL base).1 ++ '_' :: natRepr k ++ (splitExtL base).2

/-- The `while True` loop of `get_unique_filename`: try increasing
counters until the candidate does not exist.  The fuel `|fs| + 1` always
suffices (see `guLoop_finds`). -/
def guLoop (fs : DirFS) (base : Chars) : Nat → Nat → Chars
  | 0, k => numberedName base k
  | fuel + 1, k =>
    if numberedName base k ∈ fsNames fs then guLoop fs base fuel (k + 1)
    else numberedName base k

/-- Embeds `get_unique_filename`: the desired name itself when free, otherwise
the first free numbered candidate starting from counter 1. -/
def getUniqueFilename (fs : DirFS) (base : Chars) : Chars :=
  if base ∈ fsNames fs then guLoop fs base (fs.length + 1) 1
  else base

/-- Frontmatter identity used by duplicate resolution: the
`namespace` and `python_object_type` values (with default `''`); `none`
models the uncaught `AttributeError` on a non-mapping frontmatter. -/
def fmIdentity (content : Chars) : Option (Chars × Chars) :=
  match fmGet (extractFrontmatter (some content)) (lit "namespace"),
      fmGet (extractFrontmatter (some content)) (lit "python_object_type") with
  | some ns, some ty => some (ns, ty)
  | _, _ => none

/-- One non-dry-run step of `rename_markdown_files` for a file whose
cleaned name differs: when the target name exists, equal
(namespace, python_object_type) pairs delete the incoming file, unequal
pairs rename it to the uniquified name; a free target is a plain rename.
`none` models an uncaught exception while comparing frontmatter. -/
def renameStep (fs : DirFS) (oldName : Chars) : Option DirFS :=
  let newName := cleanFilename oldName
  match fsGet fs oldName with
  | none => some fs
  | some oldContent =>
    if oldName = newName then some fs
    else
      match fsGet fs newName with
      | some newContent =>
        match fmIdentity oldContent, fmIdentity newContent with
        | some idOld, some idNew =>
          if idOld = idNew then some (fsErase fs oldName)
          else
            some (fsErase fs oldName ++ [(getUniqueFilename fs newName, oldContent)])
        | _, _ => none
      | none => some (fsErase fs oldName ++ [(newName, oldContent)])

/-! ### configuration.py: the SOURCE table -/

/-- The `hugo_specs` sub-table of a SOURCE entry (the `file_path` field of
the Python table is a machine-local filesystem path, unused by any
behaviour modelled here, and is omitted). -/
structure HugoSpecs where
  title : Chars
  description : Chars
  frontmatter : Chars
  folderName : Chars
  weight : Nat
deriving DecidableEq, Repr

/-- One `SOURCE` entry. -/
structure SourceEntry where
  module : Chars
  hugo : HugoSpecs
deriving DecidableEq, Repr

/-- The `SOURCE` configuration table of configuration.py, in order. -/
def SOURCE : List (Chars × SourceEntry) :=
  [ (lit "SDK",
     { module := lit "wandb",
       hugo := { title := lit "Global Functions",
                 description := lit "Core W&B functions for initializing runs, logging data, and managing experiments.",
                 frontmatter := lit "object_type: python_sdk_actions",
                 folderName := lit "global-functions", weight := 10 } }),
    (lit "ARTIFACT",
     { module := lit "wandb.sdk",
       hugo := { title := lit "Artifact",
                 description := lit "Manage versioned datasets and models.",
                 frontmatter := lit "object_type: python_sdk_artifact",
                 folderName := lit "artifact", weight := 20 } }),
    (lit "RUN",
     { module := lit "wandb.sdk",
       hugo := { title := lit "Run",
                 description := lit "Track and manage experiments.",
                 frontmatter := lit "object_type: python_sdk_run",
                 folderName := lit "run", weight := 30 } }),
    (lit "SETTINGS",
     { module := lit "wandb.sdk",
       hugo := { title := lit "Settings",
                 description := lit "Configure W&B behavior and preferences.",
                 frontmatter := lit "object_type: python_sdk_settings",
                 folderName := lit "settings", weight := 40 } }),
    (lit "CUSTOMCHARTS",
     { module := lit "wandb.plot",
       hugo := { title := lit "Custom Charts",
                 description := lit "Create custom charts and visualizations.",
                 frontmatter := lit "object_type: python_sdk_custom_charts",
                 folderName := lit "custom-charts", weight := 80 } }),
    (lit "DATATYPE",
     { module := lit "wandb.sdk.data_types",
       hugo := { title := lit "Data Types",
                 description := lit "Defines Data Types for logging interactive visualizations to W&B.",
                 frontmatter := lit "object_type: python_sdk_data_type",
                 folderName := lit "data-types", weight := 70 } }),
    (lit "PUBLIC_API",
     { module := lit "wandb.apis.public",
       hugo := { title := lit "Public API Reference",
                 description := lit "Query and analyze data logged to W&B.",
                 frontmatter := lit "object_type: public_apis_namespace",
                 folderName := lit "public-api", weight := 90 } }),
    (lit "AUTOMATIONS",
     { module := lit "wandb.automations",
       hugo := { title := lit "Automations",
                 description := lit "Automate your W&B workflows.",
                 frontmatter := lit "object_type: automations_namespace",
                 folderName := lit "automations", weight := 100 } }),
    (lit "REPORTS",
     { module := lit "wandb_workspaces.reports.v2",
       hugo := { title := lit "Reports",
                 description := lit "Create and manage W&B reports programmatically.",
                 frontmatter := lit "object_type: python_sdk_reports",
                 folderName := lit "reports", weight := 110 } }),
    (lit "WORKSPACES",
     { module := lit "wandb_workspaces.workspaces",
       hugo := { title := lit "Workspaces",
                 description := lit "Manage W&B workspaces and dashboards.",
                 frontmatter := lit "object_type: python_sdk_workspaces",
                 folderName := lit "workspaces", weight := 120 } }) ]

/-- Association lookup on character-list keys. -/
def assocFind {α : Type} (l : List (Chars × α)) (k : Chars) : Option α :=
  match l with
  | [] => none
  | (q, v) :: t => if q = k then some v else assocFind t k

/-! ### create_landing_pages.py -/

/-- One entry of `build_page_content_from_source`. -/
structure PageContent where
  title : Chars
  module : Chars
  description : Chars
  weight : Nat
deriving DecidableEq, Repr

/-- Embeds `build_page_content_from_source`: key the SOURCE rows by folder name
(every row carries all four fields, so the `.get` defaults of the Python
never fire). -/
def buildPageContent : List (Chars × PageContent) :=
  SOURCE.map (fun e =>
    (e.2.hugo.folderName,
     { title := e.2.hugo.title, module := e.2.module,
       description := e.2.hugo.description, weight := e.2.hugo.weight }))

/-- Python `str.replace(old, new)` (all occurrences, left to right). -/
def replaceAllGo (needle repl : Chars) : Nat → Chars → Chars
  | 0, s => s
  | fuel + 1, s =>
    match s with
    | [] => []
    | c :: cs =>
      match takeLit needle (c :: cs) with
      | some rest => repl ++ replaceAllGo needle repl fuel rest
      | none => c :: replaceAllGo needle repl fuel cs

/-- Python `str.replace(old, new)` for a non-empty `old`. -/
def replaceAll (needle repl s : Chars) : Chars := replaceAllGo needle repl s.length s

/-- Python `str.title()`: letters after a non-letter are uppercased, the
other letters lowercased. -/
def titleCaseGo : Bool → Chars → Chars
  | _, [] => []
  | prevAlpha, c :: cs =>
    (if c.isAlpha then (if prevAlpha then c.toLower else c.toUpper) else c) ::
      titleCaseGo c.isAlpha cs

/-- Python `str.title()`. -/
def titleCase (s : Chars) : Chars := titleCaseGo false s

/-- Python `str.upper()` (ASCII fragment). -/
def upperAll (s : Chars) : Chars := s.map Char.toUpper

/-- Path basename: the segment after the last `/`. -/
def basenameL (p : Chars) : Chars := (p.reverse.takeWhile (· ≠ '/')).reverse

/-- The `_index.md` body written for an ordinary subdirectory by
`create_markdown_index_page`. -/
def subdirIndexContent (dirName : Chars) : Chars :=
  let pc := assocFind buildPageContent dirName
  let title := match pc with
    | some p => p.title
    | none => titleCase (replaceAll (lit "_") (lit " ") (replaceAll (lit "-") (lit " ") dirName))
  let description := match pc with
    | some p => p.description
    | none => []
  let moduleName := match pc with
    | some p => p.module
    | none => []
  let weight : Nat :=
    if title = lit "Classes" then 30
    else if title = lit "Functions" then 20
    else match pc with
      | some p => p.weight
      | none => 0
  lit "---\ntitle: " ++ title ++ '\n' :: lit "module: " ++ moduleName ++
    '\n' :: lit "weight: " ++ natRepr weight ++ '\n' :: lit "---\n" ++
    description ++ ['\n']

/-- The fixed description of `create_python_sdk_index_file`. -/
def sdkManualDescription : Chars :=
  lit "Train and fine-tune models, manage models from experimentation to production. For guides and examples, see https://docs.wandb.ai."

/-- The `_index.md` body written by `create_python_sdk_index_file`. -/
def sdkIndexContent (dirName : Chars) : Chars :=
  let pc := assocFind buildPageContent dirName
  let title := match pc with
    | some p => p.title
    | none => titleCase (replaceAll (lit "-") (lit " ") dirName)
  let moduleName := match pc with
    | some p => p.module
    | none => []
  let weight : Nat := match pc with
    | some p => p.weight
    | none => 10
  lit "---\ntitle: " ++ upperAll title ++ '\n' :: lit "module: " ++ moduleName ++
    '\n' :: lit "weight: " ++ natRepr weight ++ '\n' :: lit "no_list: true\n---\n" ++
    sdkManualDescription

/-- One cross-reference card of `create_python_index_file`. -/
def indexCard (folder : Chars) (pc : PageContent) : Chars :=
  lit "    \x7b\x7b< card >\x7d\x7d\n            <a href=\"/ref/python/" ++ folder ++
    lit "\">\n            <h2 className=\"card-title\">" ++ pc.title ++
    lit "</h2></a>\n            <p className=\"card-content\">" ++ pc.description ++
    lit "</p>\n        \n        \x7b\x7b< /card >\x7d\x7d"

/-- The fixed manual card of `create_python_index_file`. -/
def manualCard : Chars :=
  lit "    \x7b\x7b< card >\x7d\x7d\n        <a href=\"/ref/python/sdk\">\n        <h2 className=\"card-title\">Python Reference</h2></a>\n        <p className=\"card-content\">Train and fine-tune models, manage models from experimentation to production.</p>\n    \n    \x7b\x7b< /card >\x7d\x7d"

/-- The cross-reference cards of the root index: SOURCE rows whose module
does not contain `sdk` and whose title is not `Actions`, plus the manual
card. -/
def rootCards : List Chars :=
  (buildPageContent.filter
      (fun e => !(containsSub (lit "sdk") e.2.module) && e.2.title ≠ lit "Actions")).map
    (fun e => indexCard e.1 e.2) ++ [manualCard]

/-- The root `_index.md` body written by `create_python_index_file`; the
installed `wandb.__version__` is a parameter. -/
def rootIndexContent (version : Chars) : Chars :=
  let cards := rootCards
  let midpoint := (cards.length + 1) / 2
  let pane1 := lit "\x7b\x7b< cardpane >\x7d\x7d\n" ++ joinSep ['\n'] (cards.take midpoint) ++
    lit "\n\x7b\x7b< /cardpane >\x7d\x7d"
  let pane2 := lit "\x7b\x7b< cardpane >\x7d\x7d\n" ++ joinSep ['\n'] (cards.drop midpoint) ++
    lit "\n\x7b\x7b< /cardpane >\x7d\x7d"
  lit "---\ntitle: Python Library v(" ++ version ++ lit ")\n---\n" ++
    pane1 ++ '\n' :: pane2 ++ ['\n']

/-- Write (create or overwrite) a file. -/
def fsWrite (fs : DirFS) (p c : Chars) : DirFS := fsErase fs p ++ [(p, c)]

/-- Embeds `create_markdown_index_page`: walk the directories and write an
`_index.md` into each — the root via `create_python_index_file`,
directories whose name contains `sdk` via `create_python_sdk_index_file`,
all others with the title/module/weight/description body.  The Python
opens each file in `w` mode unconditionally. -/
def createMarkdownIndexPage (version : Chars) (root : Chars) (dirs : List Chars)
    (fs : DirFS) : DirFS :=
  dirs.foldl
    (fun acc d =>
      if d = root then fsWrite acc (d ++ lit "/_index.md") (rootIndexContent version)
      else
        let nm := basenameL d
        if containsSub (lit "sdk") nm then
          fsWrite acc (d ++ lit "/_index.md") (sdkIndexContent nm)
        else fsWrite acc (d ++ lit "/_index.md") (subdirIndexContent nm))
    fs

/-! ### new_sdk_docs.py and generate_sdk_docs.py: the category tag -/

/-- Embeds `_type_key_string` of new_sdk_docs.py: a `data_type` path gets the
data-type tag, everything else the generic `api` tag. -/
def typeKeyStringNew (path : Chars) : Chars :=
  if containsSub (lit "data_type") path then lit "object_type: data_type\n"
  else lit "object_type: api\n"

/-- Frontmatter tag of a SOURCE row, `SOURCE[key]["hugo_specs"]["frontmatter"]`;
`none` models the `KeyError` on a missing key. -/
def sourceFrontmatter (key : Chars) : Option Chars :=
  (assocFind SOURCE key).map (fun e => e.hugo.frontmatter)

/-- Embeds `_type_key_string` of generate_sdk_docs.py.  The Python conditions
`"sdk" and "data_type" in path` and `"apis" and "public" in path`
evaluate as `"data_type" in path` and `"public" in path` (a non-empty
string literal is truthy, and `and` returns its second operand), so only
the second substring of each pair is tested.  The `launch` branch looks
up the key `LAUNCH_API`, which the SOURCE table does not define
(`KeyError`, modelled by `none`). -/
def typeKeyStringGen (path : Chars) : Option Chars :=
  if containsSub (lit "data_type") path then
    (sourceFrontmatter (lit "DATATYPE")).map (· ++ ['\n'])
  else if containsSub (lit "public") path then
    (sourceFrontmatter (lit "PUBLIC_API")).map (· ++ ['\n'])
  else if containsSub (lit "launch") path then
    (sourceFrontmatter (lit "LAUNCH_API")).map (· ++ ['\n'])
  else if containsSub (lit "automations") path then
    (sourceFrontmatter (lit "AUTOMATIONS")).map (· ++ ['\n'])
  else if containsSub (lit "plot") path then
    (sourceFrontmatter (lit "CUSTOMCHARTS")).map (· ++ ['\n'])
  else (sourceFrontmatter (lit "SDK")).map (· ++ ['\n'])

/-- Specification-style reading of the tag choice: an ordered list of
(substring, tag) rules, first match wins, with a default tag for paths
matching no rule. -/
def firstMatchTag (rules : List (Chars × Chars)) (deflt : Chars) (path : Chars) :
    Chars :=
  match rules with
  | [] => deflt
  | (sub, tag) :: rs =>
    if containsSub sub path then tag else firstMatchTag rs deflt path

/-- First-match rule table over optional tags (a missing tag models a
crash on that rule). -/
def firstMatchTagO (rules : List (Chars × Option Chars)) (deflt : Option Chars)
    (path : Chars) : Option Chars :=
  match rules with
  | [] => deflt
  | (sub, tag) :: rs =>
    if containsSub sub path then tag else firstMatchTagO rs deflt path

/-! ### generate_sdk_docs.py / new_sdk_docs.py: export-list extraction -/

/-- Embeds `re.search(r'__all__\s*=\s*[\[\(](.*?)[\]\)]', content, re.DOTALL)`:
leftmost position where the literal `__all__`, optional whitespace, `=`,
optional whitespace and an opening bracket are followed by a lazily
matched body ending at the first closing bracket of either kind.
Returns the body. -/
def searchAllInit : Chars → Option Chars
  | [] => none
  | c :: cs =>
    (match takeLit (lit "__all__") (c :: cs) with
      | some r =>
        let r1 := r.dropWhile isPySpace
        match r1 with
        | '=' :: r2 =>
          let r3 := r2.dropWhile isPySpace
          match r3 with
          | b :: r4 =>
            if b = '[' ∨ b = '(' then
              match takeUntilSfx
                  (fun t => match t with
                    | x :: _ => x = ']' ∨ x = ')'
                    | [] => false) r4 with
              | some (body, _ :: _) => some body
              | _ => none
            else none
          | [] => none
        | _ => none
      | none => none).orElse (fun _ => searchAllInit cs)

/-- Embeds `re.search(r'__all__\s*=\s*\((.*?)\)', content, re.DOTALL)` of the
`.pyi` variant: parentheses only. -/
def searchAllPyi : Chars → Option Chars
  | [] => none
  | c :: cs =>
    (match takeLit (lit "__all__") (c :: cs) with
      | some r =>
        let r1 := r.dropWhile isPySpace
        match r1 with
        | '=' :: r2 =>
          let r3 := r2.dropWhile isPySpace
          match r3 with
          | '(' :: r4 =>
            match splitAtSub (lit ")") r4 with
            | some (body, _) => some body
            | none => none
          | _ => none
        | _ => none
      | none => none).orElse (fun _ => searchAllPyi cs)

/-- Embeds `re.findall(r'["\'](.*?)["\']', line)`: non-overlapping quoted items;
either quote character opens and either closes. -/
def findQuoted : Nat → Chars → List Chars
  | 0, _ => []
  | fuel + 1, s =>
    match s with
    | [] => []
    | c :: cs =>
      if c = '"' ∨ c = '\'' then
        match takeUntilSfx
            (fun t => match t with
              | x :: _ => x = '"' ∨ x = '\''
              | [] => false) cs with
        | some (item, _ :: rest) => item :: findQuoted fuel rest
        | _ => []
      else findQuoted fuel cs

/-- Embeds `re.search(r'#\s*doc:exclude', line)` of the `.pyi` variant: a `#`
followed by optional whitespace and `doc:exclude`. -/
def hasDocExcludeMark : Chars → Bool
  | [] => false
  | c :: cs =>
    (c = '#' && startsWithL (lit "doc:exclude") (cs.dropWhile isPySpace)) ||
      hasDocExcludeMark cs

/-- Embeds `re.search(r'"(.*?)"', line)` of the `.pyi` variant: the first
double-quoted item of a line. -/
def firstDoubleQuoted (s : Chars) : Option Chars :=
  match splitAtSub (lit "\"") s with
  | none => none
  | some (_, r) =>
    match splitAtSub (lit "\"") r with
    | none => none
    | some (item, _) => some item

/-- Embeds `get_api_list_from_init` (generate_sdk_docs.py): an unreadable file
(`none`) yields `[]`; a missing `__all__` yields `[]`; otherwise the
quoted names on each body line, skipping lines carrying `# doc:exclude`. -/
def getApiListFromInit (file : Option Chars) : List Chars :=
  match file with
  | none => []
  | some content =>
    match searchAllInit content with
    | none => []
    | some body =>
      (splitLines body).foldr
        (fun line acc =>
          if containsSub (lit "# doc:exclude") line then acc
          else findQuoted (line.length + 1) line ++ acc) []

/-- Embeds `get_api_list_from_pyi` (new_sdk_docs.py): like the `__init__`
variant but parenthesised `__all__` only, one double-quoted item per
line. -/
def getApiListFromPyi (file : Option Chars) : List Chars :=
  match file with
  | none => []
  | some content =>
    match searchAllPyi content with
    | none => []
    | some body =>
      (splitLines body).foldr
        (fun line acc =>
          if hasDocExcludeMark line then acc
          else
            match firstDoubleQuoted line with
            | some item => item :: acc
            | none => acc) []

/-! ### check_mdx_vs_docsjson.py: updating docs.json with missing pages -/

mutual

/-- A node of the docs.json navigation structure: a page path or a named
group of nested nodes (mutually defined with its node lists so that all
recursion over the structure is plainly structural). -/
inductive PageItem where
  | page (path : Chars) : PageItem
  | group (name : Chars) (pages : PageList) : PageItem

/-- A list of navigation nodes. -/
inductive PageList where
  | nil : PageList
  | cons (head : PageItem) (tail : PageList) : PageList

end

/-- One tab of a language section. -/
structure NavTab where
  pages : PageList

/-- One language section of `docs_data["navigation"]["languages"]`. -/
structure LangSection where
  language : Chars
  tabs : List NavTab

/-- Python `str.lower()` (ASCII fragment). -/
def lowerAll (s : Chars) : Chars := s.map Char.toLower

/-- Embeds `path_segment_to_group_name`. -/
def pathSegmentToGroupName (seg : Chars) : Chars :=
  if seg = lit "data-types" then lit "Data Types"
  else if seg = lit "custom-charts" then lit "Custom Charts"
  else if seg = lit "public-api" then lit "Public API"
  else if seg = lit "functions" then lit "Global Functions"
  else
    match seg with
    | [] => []
    | c :: cs => c.toUpper :: cs

/-- Split at every occurrence of one character, Python `str.split(c)`. -/
def splitOnChar (c : Char) : Chars → List Chars
  | [] => [[]]
  | x :: xs =>
    if x = c then [] :: splitOnChar c xs
    else
      match splitOnChar c xs with
      | [] => [[x]]
      | l :: ls => (x :: l) :: ls

/-- Embeds `mdx_path_to_group_and_page`: strip `.mdx`, require at least
`python/category/page`, map the category to a group name and re-prefix
with `models/ref/`. -/
def mdxPathToGroupAndPage (mdxPath : Chars) : Option Chars × Chars :=
  let pathNoExt := replaceAll (lit ".mdx") [] mdxPath
  let parts := splitOnChar '/' pathNoExt
  if parts.length < 3 ∨ parts.head? ≠ some (lit "python") then (none, [])
  else
    (some (pathSegmentToGroupName (parts.getD 1 [])),
     lit "models/ref/" ++ pathNoExt)

/-- The insertion-index loop of `find_and_update_group`: walk the pages,
remembering `i + 1` after every page that is not strictly greater
(case-insensitively) than the new one and after every nested group. -/
def insertIndexGo (newLower : Chars) : PageList → Nat → Nat → Nat
  | PageList.nil, _, idx => idx
  | PageList.cons (PageItem.page p) rest, i, idx =>
    if lexLt newLower (lowerAll p) then idx
    else insertIndexGo newLower rest (i + 1) (i + 1)
  | PageList.cons (PageItem.group _ _) rest, i, _ =>
    insertIndexGo newLower rest (i + 1) (i + 1)

/-- Navigation-list insertion at an index (Python `list.insert`). -/
def insertAtPL (idx : Nat) (a : PageItem) : PageList → PageList
  | PageList.nil => PageList.cons a PageList.nil
  | PageList.cons x xs =>
    match idx with
    | 0 => PageList.cons a (PageList.cons x xs)
    | i + 1 => PageList.cons x (insertAtPL i a xs)

/-- Case-insensitive duplicate test of `find_and_update_group`. -/
def hasPageCi (newLower : Chars) : PageList → Bool
  | PageList.nil => false
  | PageList.cons (PageItem.page p) rest =>
    lowerAll p = newLower || hasPageCi newLower rest
  | PageList.cons (PageItem.group _ _) rest => hasPageCi newLower rest

/-- Embeds `find_and_update_group`: locate the target group and insert the page
alphabetically (case-insensitive); a case-insensitive duplicate returns
`false` immediately (stopping the scan of that level); nested groups are
searched recursively and the scan of the current level continues past a
failed nested search. -/
def findAndUpdateGroup (target newPage : Chars) :
    PageList → Bool × PageList
  | PageList.nil => (false, PageList.nil)
  | PageList.cons (PageItem.page p) rest =>
    let r := findAndUpdateGroup target newPage rest
    (r.1, PageList.cons (PageItem.page p) r.2)
  | PageList.cons (PageItem.group g pgs) rest =>
    if g = target then
      if hasPageCi (lowerAll newPage) pgs then
        (false, PageList.cons (PageItem.group g pgs) rest)
      else
        let idx := insertIndexGo (lowerAll newPage) pgs 0 0
        (true,
         PageList.cons (PageItem.group g (insertAtPL idx (PageItem.page newPage) pgs))
           rest)
    else
      match findAndUpdateGroup target newPage pgs with
      | (true, pgs') => (true, PageList.cons (PageItem.group g pgs') rest)
      | (false, _) =>
        let r := findAndUpdateGroup target newPage rest
        (r.1, PageList.cons (PageItem.group g pgs) r.2)

/-- The first-tab-wins loop of `update_docs_json_with_missing_pages`. -/
def addToTabs (groupName docsPage : Chars) : List NavTab → Bool × List NavTab
  | [] => (false, [])
  | tab :: rest =>
    match findAndUpdateGroup groupName docsPage tab.pages with
    | (true, pages') => (true, { pages := pages' } :: rest)
    | (false, _) =>
      let r := addToTabs groupName docsPage rest
      (r.1, tab :: r.2)

/-- Process one missing MDX file across the tabs of the `en` section:
the first tab in which the group is found and updated wins. -/
def addMissingPage (tabs : List NavTab) (mdxFile : Chars) :
    Bool × List NavTab :=
  match mdxPathToGroupAndPage mdxFile with
  | (none, _) => (false, tabs)
  | (some groupName, docsPage) => addToTabs groupName docsPage tabs

/-- Observable filesystem events of
`update_docs_json_with_missing_pages`. -/
inductive DocsEvent where
  | backupWrite : DocsEvent
  | docsRewrite : DocsEvent
deriving DecidableEq, Repr

/-- Embeds `update_docs_json_with_missing_pages`: nothing happens on an empty
missing list; otherwise `create_backup` runs first, then the `en` section
is searched and each missing file routed into its group, and docs.json is
rewritten only when at least one page was added.  Returns the event
trace, the number of added pages, and the updated sections. -/
def updateDocsJsonWithMissingPages (missing : List Chars)
    (sections : List LangSection) :
    List DocsEvent × Nat × List LangSection :=
  match missing with
  | [] => ([], 0, sections)
  | _ :: _ =>
    let enIdx := sections.findIdx? (fun l => l.language = lit "en")
    match enIdx with
    | none => ([DocsEvent.backupWrite], 0, sections)
    | some i =>
      let en := sections.getD i { language := lit "en", tabs := [] }
      let result := missing.foldl
        (fun (acc : Nat × List NavTab) mdx =>
          match addMissingPage acc.2 mdx with
          | (true, tabs') => (acc.1 + 1, tabs')
          | (false, _) => (acc.1, acc.2))
        (0, en.tabs)
      let sections' := sections.set i { language := en.language, tabs := result.2 }
      if result.1 = 0 then ([DocsEvent.backupWrite], 0, sections)
      else ([DocsEvent.backupWrite, DocsEvent.docsRewrite], result.1, sections')

/-! ### Helper lemmas: `clean_text` is the identity on trigger-free text -/

/-- The characters opening any rule of the cleaner: every pattern of
`clean_text` begins with a literal (or, for the attribute bullets, an
optional space run) whose first character is one of these. -/
def cleanTriggers : List Char := ['<', '#', '*', '-', ' ']

/-- The head of the remaining text (if any) cannot open a rule. -/
def headPlain (s : Chars) : Prop :=
  match s with
  | [] => True
  | c :: _ => c ∉ cleanTriggers

theorem takeLit_cons_ne {x : Char} {xs : Chars} {c : Char} {t : Chars}
    (h : c ≠ x) : takeLit (x :: xs) (c :: t) = none := by
  simp [takeLit, h]

theorem tryAnchorTag_plain (bol : Bool) (s : Chars) (h : headPlain s) :
    tryAnchorTag bol s = none := by
  match s with
  | [] => rfl
  | c :: t =>
    have hc : c ≠ '<' := by
      intro e; exact h (by simp [cleanTriggers, e])
    simp only [tryAnchorTag, show lit "<a" = '<' :: 'a' :: [] from rfl,
      takeLit_cons_ne hc]

theorem tryModuleName_plain (bol : Bool) (s : Chars) (h : headPlain s) :
    tryModuleName bol s = none := by
  match s with
  | [] => rfl
  | c :: t =>
    have hc : c ≠ '#' := by
      intro e; exact h (by simp [cleanTriggers, e])
    simp only [tryModuleName,
      show lit "# <kbd>module</kbd> `" = '#' :: lit " <kbd>module</kbd> `" from rfl,
      takeLit_cons_ne hc]

theorem tryGlobalVars_plain (bol : Bool) (s : Chars) (h : headPlain s) :
    tryGlobalVars bol s = none := by
  match s with
  | [] => rfl
  | c :: t =>
    have hc : c ≠ '*' := by
      intro e; exact h (by simp [cleanTriggers, e])
    simp only [tryGlobalVars,
      show lit "**Global Variables**\n" = '*' :: lit "*Global Variables**\n" from rfl,
      takeLit_cons_ne hc]

theorem tryBoldTag_plain (bol : Bool) (s : Chars) (h : headPlain s) :
    tryBoldTag bol s = none := by
  match s with
  | [] => rfl
  | c :: t =>
    have hc : c ≠ '<' := by
      intro e; exact h (by simp [cleanTriggers, e])
    simp only [tryBoldTag, show lit "<b>" = '<' :: lit "b>" from rfl,
      takeLit_cons_ne hc]

theorem tryFooter_plain (bol : Bool) (s : Chars) (h : headPlain s) :
    tryFooter bol s = none := by
  match s with
  | [] => rfl
  | c :: t =>
    have hc : c ≠ '-' := by
      intro e; exact h (by simp [cleanTriggers, e])
    simp only [tryFooter, show lit "---" = '-' :: lit "--" from rfl,
      takeLit_cons_ne hc]

theorem tryHeading4_plain (bol : Bool) (s : Chars) (h : headPlain s) :
    tryHeading4 bol s = none := by
  match s with
  | [] => rfl
  | c :: t =>
    have hc : c ≠ '#' := by
      intro e; exact h (by simp [cleanTriggers, e])
    simp only [tryHeading4, show lit "####" = '#' :: lit "###" from rfl,
      takeLit_cons_ne hc]

theorem tryCodeBlockShape_plain (hdr0 : Char) (hdr : Chars) (stop : Chars → Bool)
    (s : Chars) (h : headPlain s) (h0 : hdr0 ∈ cleanTriggers) :
    tryCodeBlockShape (hdr0 :: hdr) stop s = none := by
  match s with
  | [] => rfl
  | c :: t =>
    have hc : c ≠ hdr0 := by
      intro e; exact h (e ▸ h0)
    simp only [tryCodeBlockShape, takeLit_cons_ne hc]

theorem tryBlockPat_plain (s : Chars) (h : headPlain s) : tryBlockPat s = none := by
  have hA : tryBlockClassAlt s = none := by
    match s with
    | [] => rfl
    | c :: t =>
      have hc : c ≠ '#' := by
        intro e; exact h (by simp [cleanTriggers, e])
      simp only [tryBlockClassAlt,
        show lit "## <kbd>class</kbd> `" = '#' :: lit "# <kbd>class</kbd> `" from rfl,
        takeLit_cons_ne hc]
  have hB : tryBlockCodeAlt s = none := by
    have h1 := tryCodeBlockShape_plain '#' (lit "## <kbd>method</kbd> `") bigStop s h
      (by simp [cleanTriggers])
    have h2 := tryCodeBlockShape_plain '#' (lit "## <kbd>function</kbd> `") bigStop s h
      (by simp [cleanTriggers])
    simp only [tryBlockCodeAlt,
      show lit "### <kbd>method</kbd> `" = '#' :: lit "## <kbd>method</kbd> `" from rfl,
      show lit "### <kbd>function</kbd> `" = '#' :: lit "## <kbd>function</kbd> `" from rfl,
      h1, h2]
  have hC : tryBlockPropertyAlt s = none := by
    match s with
    | [] => rfl
    | c :: t =>
      have hc : c ≠ '#' := by
        intro e; exact h (by simp [cleanTriggers, e])
      simp only [tryBlockPropertyAlt,
        show lit "### <kbd>property</kbd> " = '#' :: lit "## <kbd>property</kbd> " from rfl,
        takeLit_cons_ne hc]
  simp only [tryBlockPat, hA, hB, hC]

theorem tryClassPat_plain (s : Chars) (h : headPlain s) : tryClassPat s = none := by
  match s with
  | [] => rfl
  | c :: t =>
    have hc : c ≠ '#' := by
      intro e; exact h (by simp [cleanTriggers, e])
    simp only [tryClassPat,
      show lit "## <kbd>class</kbd> `" = '#' :: lit "# <kbd>class</kbd> `" from rfl,
      takeLit_cons_ne hc]

theorem tryFunctionPat_plain (s : Chars) (h : headPlain s) :
    tryFunctionPat s = none := by
  have := tryCodeBlockShape_plain '#' (lit "# <kbd>function</kbd> `") funStop s h
    (by simp [cleanTriggers])
  simpa only [tryFunctionPat,
    show lit "## <kbd>function</kbd> `" = '#' :: lit "# <kbd>function</kbd> `" from rfl]
    using this

theorem tryClassmethodPat_plain (s : Chars) (h : headPlain s) :
    tryClassmethodPat s = none := by
  have := tryCodeBlockShape_plain '#' (lit "## <kbd>classmethod</kbd> `") bigStop s h
    (by simp [cleanTriggers])
  simpa only [tryClassmethodPat,
    show lit "### <kbd>classmethod</kbd> `" = '#' :: lit "## <kbd>classmethod</kbd> `" from rfl]
    using this

theorem tryInitPat_plain (s : Chars) (h : headPlain s) : tryInitPat s = none := by
  match s with
  | [] => rfl
  | c :: t =>
    have hc : c ≠ '<' := by
      intro e; exact h (by simp [cleanTriggers, e])
    simp only [tryInitPat,
      show lit "<!-- lazydoc-ignore-init: internal -->" =
        '<' :: lit "!-- lazydoc-ignore-init: internal -->" from rfl,
      takeLit_cons_ne hc]

theorem tryAttrBullet_plain (bol : Bool) (s : Chars) (h : headPlain s) :
    tryAttrBullet bol s = none := by
  match bol, s with
  | false, _ => rfl
  | true, [] => rfl
  | true, c :: t =>
    have hsp : c ≠ ' ' := by
      intro e; exact h (by simp [cleanTriggers, e])
    have hd : c ≠ '-' := by
      intro e; exact h (by simp [cleanTriggers, e])
    simp only [tryAttrBullet, if_pos rfl, List.takeWhile]
    simp only [show decide (c = ' ') = false from by simp [hsp],
      List.length_nil, show lit "- " = '-' :: lit " " from rfl, List.drop_zero]
    simp [takeLit_cons_ne hd]

theorem tryMoveInitPat_plain (bol : Bool) (s : Chars) (h : headPlain s) :
    tryMoveInitPat bol s = none := by
  match s with
  | [] => rfl
  | c :: t =>
    have hc : c ≠ '#' := by
      intro e; exact h (by simp [cleanTriggers, e])
    simp only [tryMoveInitPat,
      show lit "## <kbd>class</kbd> `" = '#' :: lit "# <kbd>class</kbd> `" from rfl,
      takeLit_cons_ne hc]

/-- A scan whose pattern matches nowhere on trigger-free text is the
identity. -/
theorem subScan_id (t : SubTry)
    (H : ∀ bol s, headPlain s → t bol s = none) :
    ∀ (fuel : Nat) (bol : Bool) (s : Chars), (∀ c ∈ s, c ∉ cleanTriggers) →
      subScan t fuel bol s = s := by
  intro fuel
  induction fuel with
  | zero => intro bol s _; rfl
  | succ n ih =>
    intro bol s hs
    match s with
    | [] =>
      have ht := H bol [] trivial
      simp [subScan, ht]
    | c :: cs =>
      have ht := H bol (c :: cs) (hs c (by simp))
      have ih' := ih (c = '\n') cs (fun d hd => hs d (by simp [hd]))
      simp [subScan, ht, ih']

theorem runSub_id (t : SubTry) (H : ∀ bol s, headPlain s → t bol s = none)
    (s : Chars) (hs : ∀ c ∈ s, c ∉ cleanTriggers) : runSub t s = s :=
  subScan_id t H (s.length + 1) true s hs

/-- Embeds `clean_text` leaves trigger-free text unchanged. -/
theorem cleanText_plain_id (s : Chars) (hs : ∀ c ∈ s, c ∉ cleanTriggers) :
    cleanText s = s := by
  have hkd : ∀ (tok : Chars) (t : Chars → Option (Chars × Chars)),
      (∀ u, headPlain u → t u = none) →
      ∀ bol u, headPlain u → mkKeepDrop tok t bol u = none := by
    intro tok t ht bol u hu
    simp [mkKeepDrop, ht u hu]
  have hdel : ∀ (t : Chars → Option (Chars × Chars)),
      (∀ u, headPlain u → t u = none) →
      ∀ bol u, headPlain u → mkDelete t bol u = none := by
    intro t ht bol u hu
    simp [mkDelete, ht u hu]
  have hkdb : ∀ bol u, headPlain u →
      mkKeepDropBol tokIgnoreAttrs tryAttrBullet bol u = none := by
    intro bol u hu
    simp [mkKeepDropBol, tryAttrBullet_plain bol u hu]
  simp only [cleanText, removeIgnoredBlocks]
  rw [runSub_id _ tryAnchorTag_plain _ hs,
      runSub_id _ tryModuleName_plain _ hs,
      runSub_id _ tryGlobalVars_plain _ hs,
      runSub_id _ tryBoldTag_plain _ hs,
      runSub_id _ tryFooter_plain _ hs,
      runSub_id _ tryHeading4_plain _ hs,
      runSub_id _ (hkd tokIgnore tryBlockPat (fun u => tryBlockPat_plain u)) _ hs,
      runSub_id _ (hkd tokIgnoreClass tryClassPat (fun u => tryClassPat_plain u)) _ hs,
      runSub_id _ (hkd tokIgnoreFunction tryFunctionPat (fun u => tryFunctionPat_plain u)) _ hs,
      runSub_id _ (hkd tokIgnoreClassmethod tryClassmethodPat (fun u => tryClassmethodPat_plain u)) _ hs,
      runSub_id _ (hdel tryInitPat (fun u => tryInitPat_plain u)) _ hs,
      runSub_id _ hkdb _ hs,
      runSub_id _ tryMoveInitPat_plain _ hs]

/-! ### Claim C1: idempotence of `clean_text` -/

/-- Claim C1, counterexample: `clean_text` is not idempotent.  On the
nested bold markup `<b><b>x</b></b>` one pass yields `<b>x</b>` (the lazy
`<b>(.*?)</b>` match consumes the outer opening and inner closing tag)
and a second pass strips the remaining tags, so applying the full rule
chain twice differs from applying it once. -/
theorem c1_counterexample :
    cleanText (cleanText (lit "<b><b>x</b></b>")) ≠ cleanText (lit "<b><b>x</b></b>") := by
  decide

/-- Claim C1, amended: the full rule chain of `MarkdownCleaner.clean_text`
is idempotent on text containing none of the rule-trigger characters
`<`, `#`, `*`, `-` and space (each of its patterns must consume one of
them first, so such text is a fixed point); on arbitrary input a second
pass can rewrite further (see `c1_counterexample`). -/
theorem c1_idempotent_on_plain (s : Chars) (hs : ∀ c ∈ s, c ∉ cleanTriggers) :
    cleanText (cleanText s) = cleanText s := by
  rw [cleanText_plain_id s hs, cleanText_plain_id s hs]

/-- Claim C1, witness for the amended theorem at the concrete trigger-free
text `hello\nworld`. -/
theorem c1_witness :
    (∀ c ∈ lit "hello\nworld", c ∉ cleanTriggers) ∧
      cleanText (cleanText (lit "hello\nworld")) = cleanText (lit "hello\nworld") :=
  ⟨by decide, c1_idempotent_on_plain (lit "hello\nworld") (by decide)⟩

/-! ### Claim C2: exclusion-marker block removal -/

/-- A document whose single class block is immediately preceded by the
exclusion marker line. -/
def c2doc : Chars :=
  lit "<!-- lazydoc-ignore: internal -->\n## <kbd>class</kbd> `A`"

/-- Claim C2, counterexample: `_remove_ignored_blocks` drops a matched
block only when the marker occurs inside the block's own matched span.
In `c2doc` the marker line immediately precedes the only block (N = 1,
M = 1), so the claim demands zero remaining blocks and no block text in
the output; the code instead leaves the document unchanged: the block
span starts at its heading, the preceding marker line lies outside it,
and the block survives. -/
theorem c2_counterexample :
    removeIgnoredBlocks tokIgnore tryBlockPat c2doc = c2doc ∧
      countMatches (mkKeepDrop tokIgnore tryBlockPat)
        (removeIgnoredBlocks tokIgnore tryBlockPat c2doc) = 1 ∧
      containsSub (lit "## <kbd>class</kbd> `A`")
        (removeIgnoredBlocks tokIgnore tryBlockPat c2doc) = true := by
  decide

/-- A method block named `nm` with the given body, optionally carrying
the inline exclusion marker inside its body. -/
def c2block (nm body : Chars) (marked : Bool) : Chars :=
  lit "### <kbd>method</kbd> `" ++ nm ++ lit "`\n\n```python\n" ++ nm ++
    lit "()\n```\n\n" ++ body ++ (if marked then ' ' :: tokIgnore else [])

/-- A document of three method blocks with selectable markers. -/
def c2doc3 (b1 b2 b3 : Bool) : Chars :=
  c2block (lit "ma") (lit "alphabody") b1 ++
    '\n' :: c2block (lit "mb") (lit "betabody") b2 ++
    '\n' :: c2block (lit "mc") (lit "gammabody") b3

/-- Claim C2, amended: a block is removed exactly when the marker token
occurs inside the block's matched span (for method and function blocks the
span runs from the heading to just before the next heading or end of
file) — a marker on the line before a heading does not remove that block.
Checked exhaustively for documents of three method blocks with every
combination of in-span markers: the document has 3 blocks, cleaning
leaves one block per unmarked flag, the bodies of marked blocks vanish
from the output and those of unmarked blocks remain. -/
theorem c2_inspan_removal (b1 b2 b3 : Bool) :
    countMatches (mkKeepDrop tokIgnore tryBlockPat) (c2doc3 b1 b2 b3) = 3 ∧
      countMatches (mkKeepDrop tokIgnore tryBlockPat)
          (removeIgnoredBlocks tokIgnore tryBlockPat (c2doc3 b1 b2 b3)) =
        (cond b1 0 1) + (cond b2 0 1) + (cond b3 0 1) ∧
      (b1 && containsSub (lit "alphabody")
          (removeIgnoredBlocks tokIgnore tryBlockPat (c2doc3 b1 b2 b3))) = false ∧
      (b2 && containsSub (lit "betabody")
          (removeIgnoredBlocks tokIgnore tryBlockPat (c2doc3 b1 b2 b3))) = false ∧
      (b3 && containsSub (lit "gammabody")
          (removeIgnoredBlocks tokIgnore tryBlockPat (c2doc3 b1 b2 b3))) = false ∧
      (!b1 && !containsSub (lit "alphabody")
          (removeIgnoredBlocks tokIgnore tryBlockPat (c2doc3 b1 b2 b3))) = false ∧
      (!b2 && !containsSub (lit "betabody")
          (removeIgnoredBlocks tokIgnore tryBlockPat (c2doc3 b1 b2 b3))) = false ∧
      (!b3 && !containsSub (lit "gammabody")
          (removeIgnoredBlocks tokIgnore tryBlockPat (c2doc3 b1 b2 b3))) = false := by
  revert b1 b2 b3
  decide

/-! ### Claim C3: alphabetizing class sections -/

/-- Tail of the Zebra/Apple/Mango document after its module docstring:
three class sections in the original order. -/
def c3rest : Chars :=
  lit "\n## <kbd>class</kbd> `Zebra`\nzebra text\n---\n## <kbd>class</kbd> `Apple`\napple text\n---\n## <kbd>class</kbd> `Mango`\nmango text\n"

/-- The same tail including its leading section separator. -/
def c3tail : Chars := lit "---" ++ c3rest

/-- The rebuilt tail after alphabetization: blank line, then the Apple,
Mango and Zebra sections joined by blank lines. -/
def c3sorted : Chars :=
  lit "\n\n---\n## <kbd>class</kbd> `Apple`\napple text\n\n\n---\n## <kbd>class</kbd> `Mango`\nmango text\n\n\n---\n## <kbd>class</kbd> `Zebra`\nzebra text\n"

theorem splitAtSub_dashes (d r : Chars) (h : ∀ c ∈ d, c ≠ '-') :
    splitAtSub (lit "---") (d ++ '-' :: '-' :: '-' :: r) = some (d, r) := by
  have e : lit "---" = '-' :: '-' :: '-' :: [] := rfl
  rw [e]
  induction d with
  | nil => simp [splitAtSub, takeLit]
  | cons c d' ih =>
    have hc : c ≠ '-' := h c (by simp)
    have ih' := ih (fun x hx => h x (by simp [hx]))
    simp [splitAtSub, takeLit_cons_ne hc, ih']

/-- Claim C3, amended: on a document whose docstring is followed by the
class sections Zebra, Apple, Mango, `alphabetize_headings` emits the
sections in the order Apple, Mango, Zebra; the module docstring is
preserved only up to `str.strip()` — its leading and trailing whitespace
is removed (see `c3_counterexample`) — and is kept in leading position.
Stated for every dash-free docstring `d`. -/
theorem c3_alphabetize (d : Chars) (h : ∀ c ∈ d, c ≠ '-') :
    alphabetizeHeadings (d ++ c3tail) = stripL d ++ c3sorted := by
  have hsplit : splitAtSub (lit "---") (d ++ c3tail) = some (d, c3rest) := by
    rw [show c3tail = '-' :: '-' :: '-' :: c3rest from rfl]
    exact splitAtSub_dashes d c3rest h
  simp only [alphabetizeHeadings, hsplit]
  exact congrArg (stripL d ++ ·) (by decide)

/-- Claim C3, witness for the amended theorem at the docstring `Intro`. -/
theorem c3_witness :
    alphabetizeHeadings (lit "Intro" ++ c3tail) = stripL (lit "Intro") ++ c3sorted :=
  c3_alphabetize (lit "Intro") (by decide)

/-- Claim C3, counterexample: the content preceding the first separator
is not preserved verbatim.  With the docstring ` Intro\n` (leading space,
trailing newline) the cleaned output starts with the stripped `Intro`, so
the original preceding content no longer appears at its position. -/
theorem c3_counterexample :
    alphabetizeHeadings (lit " Intro\n" ++ c3tail) = lit "Intro" ++ c3sorted ∧
      startsWithL (lit " Intro") (alphabetizeHeadings (lit " Intro\n" ++ c3tail)) = false := by
  constructor
  · decide
  · decide

/-! ### Helper lemmas: association-list filesystems -/

theorem fsGet_none_of_not_mem {fs : DirFS} {p : Chars} (h : p ∉ fsNames fs) :
    fsGet fs p = none := by
  induction fs with
  | nil => rfl
  | cons e t ih =>
    have h1 : e.1 ≠ p := by
      intro e1; exact h (by simp [fsNames, e1])
    have h2 : p ∉ fsNames t := fun hm => h (by simp [fsNames] at hm ⊢; exact Or.inr hm)
    simpa [fsGet, h1] using ih h2

theorem mem_fsNames_of_get {fs : DirFS} {p : Chars} {c : Chars}
    (h : fsGet fs p = some c) : p ∈ fsNames fs := by
  by_contra hn
  rw [fsGet_none_of_not_mem hn] at h
  exact Option.noConfusion h

theorem fsGet_erase_self {fs : DirFS} {p : Chars} (h : (fsNames fs).Nodup) :
    fsGet (fsErase fs p) p = none := by
  induction fs with
  | nil => rfl
  | cons e t ih =>
    by_cases he : e.1 = p
    · have : p ∉ fsNames t := by
        have := h.not_mem
        simpa [fsNames, he] using this
      simpa [fsErase, he] using fsGet_none_of_not_mem this
    · have ht : (fsNames t).Nodup := by
        have := h.of_cons
        simpa [fsNames] using this
      simpa [fsErase, he, fsGet] using ih ht

theorem fsGet_erase_ne {fs : DirFS} {p q : Chars} (h : q ≠ p) :
    fsGet (fsErase fs p) q = fsGet fs q := by
  induction fs with
  | nil => rfl
  | cons e t ih =>
    by_cases he : e.1 = p
    · subst he
      have : e.1 ≠ q := fun hq => h hq.symm
      simp [fsErase, fsGet, this]
    · by_cases hq : e.1 = q
      · simp [fsErase, he, fsGet, hq, h]
      · simpa [fsErase, he, fsGet, hq] using ih

theorem fsGet_append_single_self {fs : DirFS} {p : Chars} {c : Chars}
    (h : p ∉ fsNames fs) : fsGet (fs ++ [(p, c)]) p = some c := by
  induction fs with
  | nil => simp [fsGet]
  | cons e t ih =>
    have h1 : e.1 ≠ p := by
      intro e1; exact h (by simp [fsNames, e1])
    have h2 : p ∉ fsNames t := fun hm => h (by simp [fsNames] at hm ⊢; exact Or.inr hm)
    simpa [fsGet, h1] using ih h2

theorem fsGet_append_single_ne {fs : DirFS} {p q : Chars} {c : Chars}
    (h : q ≠ p) : fsGet (fs ++ [(p, c)]) q = fsGet fs q := by
  induction fs with
  | nil => simp [fsGet, h.symm]
  | cons e t ih =>
    by_cases hq : e.1 = q
    · simp [fsGet, hq]
    · simpa [fsGet, hq] using ih

theorem fsNames_erase_subset {fs : DirFS} {p q : Chars}
    (h : q ∈ fsNames (fsErase fs p)) : q ∈ fsNames fs := by
  induction fs with
  | nil => simpa [fsErase] using h
  | cons e t ih =>
    by_cases he : e.1 = p
    · simp only [fsErase, he, if_pos rfl] at h
      simp [fsNames]
      exact Or.inr (by simpa [fsNames] using h)
    · simp only [fsErase, if_neg he] at h
      simp only [fsNames, List.map_cons, List.mem_cons] at h ⊢
      rcases h with h | h
      · exact Or.inl h
      · exact Or.inr (ih (by simpa [fsNames] using h))

/-! ### Helper lemmas: `get_unique_filename` -/

theorem digitChar_fin_inj :
    ∀ d e : Fin 10, digitChar d.val = digitChar e.val → d = e := by decide

theorem digitChar_inj {d e : Nat} (hd : d < 10) (he : e < 10)
    (h : digitChar d = digitChar e) : d = e := by
  have := digitChar_fin_inj ⟨d, hd⟩ ⟨e, he⟩ h
  exact congrArg Fin.val this

theorem map_digitChar_inj :
    ∀ ds es : List Nat, (∀ d ∈ ds, d < 10) → (∀ e ∈ es, e < 10) →
      ds.map digitChar = es.map digitChar → ds = es := by
  intro ds
  induction ds with
  | nil =>
    intro es _ _ h
    cases es with
    | nil => rfl
    | cons e es' => simp at h
  | cons d ds' ih =>
    intro es hds hes h
    cases es with
    | nil => simp at h
    | cons e es' =>
      simp only [List.map_cons, List.cons.injEq] at h
      have hd := hds d (by simp)
      have he := hes e (by simp)
      have h1 := digitChar_inj hd he h.1
      have h2 := ih es' (fun x hx => hds x (by simp [hx]))
        (fun x hx => hes x (by simp [hx])) h.2
      rw [h1, h2]

theorem natReprAux_eq_digits :
    ∀ fuel n, n ≤ fuel → natReprAux fuel n = ((Nat.digits 10 n).map digitChar).reverse := by
  intro fuel
  induction fuel with
  | zero =>
    intro n hn
    interval_cases n
    simp [natReprAux]
  | succ f ih =>
    intro n hn
    by_cases h0 : n = 0
    · simp [natReprAux, h0]
    · have hdiv : n / 10 ≤ f := by
        have : n / 10 < n := Nat.div_lt_self (Nat.pos_of_ne_zero h0) (by norm_num)
        omega
      rw [show natReprAux (f + 1) n = natReprAux f (n / 10) ++ [digitChar (n % 10)] from by
          simp [natReprAux, h0],
        ih (n / 10) hdiv,
        Nat.digits_def' (by norm_num : (1 : Nat) < 10) (Nat.pos_of_ne_zero h0)]
      simp

theorem natRepr_eq_digits (n : Nat) :
    natRepr n = if n = 0 then ['0'] else ((Nat.digits 10 n).map digitChar).reverse := by
  by_cases h0 : n = 0
  · simp [natRepr, h0]
  · simp only [natRepr, if_neg h0]
    exact natReprAux_eq_digits n n le_rfl

theorem digits_map_ne_zero_str {n : Nat} (hn : n ≠ 0) :
    ((Nat.digits 10 n).map digitChar).reverse ≠ ['0'] := by
  intro h
  have hlen : (Nat.digits 10 n).length = 1 := by
    have := congrArg List.length h
    simpa using this
  obtain ⟨d, hd⟩ := List.length_eq_one.mp hlen
  have hdlt : d < 10 := Nat.digits_lt_base (by norm_num) (by rw [hd]; simp)
  have hchar : digitChar d = '0' := by
    rw [hd] at h
    simpa using h
  have hd0 : d = 0 := digitChar_inj hdlt (by norm_num) hchar
  have hofd := Nat.ofDigits_digits 10 n
  rw [hd, hd0] at hofd
  simp [Nat.ofDigits] at hofd
  exact hn hofd.symm

theorem natRepr_inj : Function.Injective natRepr := by
  intro m n h
  rw [natRepr_eq_digits, natRepr_eq_digits] at h
  by_cases hm : m = 0 <;> by_cases hn : n = 0
  · rw [hm, hn]
  · exact absurd (by simpa [hm, hn] using h.symm) (digits_map_ne_zero_str hn)
  · exact absurd (by simpa [hm, hn] using h) (digits_map_ne_zero_str hm)
  · rw [if_neg hm, if_neg hn] at h
    have h' := congrArg List.reverse h
    simp only [List.reverse_reverse] at h'
    have hds := map_digitChar_inj _ _
      (fun d hd => Nat.digits_lt_base (by norm_num) hd)
      (fun e he => Nat.digits_lt_base (by norm_num) he) h'
    exact Nat.digits_inj_iff.mp hds

theorem numberedName_inj (base : Chars) : Function.Injective (numberedName base) := by
  intro j k h
  unfold numberedName at h
  simp only [List.append_cancel_left_eq, List.append_cancel_right_eq,
    List.cons.injEq, true_and] at h
  exact natRepr_inj h

/-- Pigeonhole: among `|fs| + 1` consecutive numbered candidates at least
one name is free. -/
theorem exists_free_numbered (fs : DirFS) (base : Chars) (c : Nat) :
    ∃ k, c ≤ k ∧ k < c + (fs.length + 1) ∧ numberedName base k ∉ fsNames fs := by
  by_contra hall
  push_neg at hall
  classical
  let l := (List.range (fs.length + 1)).map (fun i => numberedName base (c + i))
  have hinj : Function.Injective (fun i => numberedName base (c + i)) := by
    intro i j hij
    have := numberedName_inj base hij
    omega
  have hnodup : l.Nodup := (List.nodup_range (fs.length + 1)).map hinj
  have hlen : l.length = fs.length + 1 := by simp [l]
  have hsub : ∀ x ∈ l, x ∈ fsNames fs := by
    intro x hx
    simp only [l, List.mem_map, List.mem_range] at hx
    obtain ⟨i, hi, rfl⟩ := hx
    exact hall (c + i) (by omega) (by omega)
  have hcard1 : l.toFinset.card = fs.length + 1 := by
    rw [List.toFinset_card_of_nodup hnodup, hlen]
  have hsubF : l.toFinset ⊆ (fsNames fs).toFinset := by
    intro x hx
    rw [List.mem_toFinset] at hx ⊢
    exact hsub x hx
  have hcard2 : (fsNames fs).toFinset.card ≤ fs.length := by
    calc (fsNames fs).toFinset.card ≤ (fsNames fs).length := List.toFinset_card_le _
    _ = fs.length := by simp [fsNames]
  have := Finset.card_le_card hsubF
  omega

/-- The counter loop returns the first free numbered candidate, provided
one exists within the fuel window. -/
theorem guLoop_finds (fs : DirFS) (base : Chars) :
    ∀ (fuel c : Nat),
      (∃ k, c ≤ k ∧ k < c + fuel ∧ numberedName base k ∉ fsNames fs) →
      ∃ k, guLoop fs base fuel c = numberedName base k ∧ c ≤ k ∧
        numberedName base k ∉ fsNames fs ∧
        ∀ j, c ≤ j → j < k → numberedName base j ∈ fsNames fs := by
  intro fuel
  induction fuel with
  | zero =>
    intro c ⟨k, hk1, hk2, _⟩
    omega
  | succ n ih =>
    intro c ⟨k, hk1, hk2, hkfree⟩
    by_cases hc : numberedName base c ∈ fsNames fs
    · have hkc : k ≠ c := fun e => (e ▸ hkfree) hc
      obtain ⟨k', h1, h2, h3, h4⟩ := ih (c + 1) ⟨k, by omega, by omega, hkfree⟩
      refine ⟨k', ?_, by omega, h3, ?_⟩
      · simpa [guLoop, hc] using h1
      · intro j hj1 hj2
        by_cases hjc : j = c
        · exact hjc ▸ hc
        · exact h4 j (by omega) hj2
    · exact ⟨c, by simp [guLoop, hc], le_refl c, hc, fun j hj1 hj2 => by omega⟩

/-- Full characterisation of `get_unique_filename` (shared by the C4 and
C9 developments): a free name is returned unchanged; a taken name is
replaced by the first free numbered candidate counting from 1; the result
never exists. -/
theorem uniqueFilename_props (fs : DirFS) (base : Chars) :
    (base ∉ fsNames fs → getUniqueFilename fs base = base) ∧
      (base ∈ fsNames fs →
        ∃ k, 1 ≤ k ∧ getUniqueFilename fs base = numberedName base k ∧
          numberedName base k ∉ fsNames fs ∧
          ∀ j, 1 ≤ j → j < k → numberedName base j ∈ fsNames fs) ∧
      getUniqueFilename fs base ∉ fsNames fs := by
  by_cases hb : base ∈ fsNames fs
  · have hex := exists_free_numbered fs base 1
    obtain ⟨k, h1, h2, h3, h4⟩ := guLoop_finds fs base (fs.length + 1) 1 hex
    refine ⟨fun hn => absurd hb hn, fun _ => ⟨k, h2, ?_, h3, h4⟩, ?_⟩
    · simpa [getUniqueFilename, hb] using h1
    · have : getUniqueFilename fs base = numberedName base k := by
        simpa [getUniqueFilename, hb] using h1
      rw [this]
      exact h3
  · exact ⟨fun _ => by simp [getUniqueFilename, hb],
      fun hmem => absurd hmem hb, by simp [getUniqueFilename, hb]⟩

/-! ### Claim C9: `get_unique_filename` -/

/-- Claim C9: `get_unique_filename` returns the desired name itself when
no file of that name exists; otherwise it returns `stem_k` + extension for
the smallest counter `k ≥ 1` whose candidate does not exist; in every
case the returned name does not exist at call time. -/
theorem c9_unique_filename (fs : DirFS) (base : Chars) :
    (base ∉ fsNames fs → getUniqueFilename fs base = base) ∧
      (base ∈ fsNames fs →
        ∃ k, 1 ≤ k ∧ getUniqueFilename fs base = numberedName base k ∧
          numberedName base k ∉ fsNames fs ∧
          ∀ j, 1 ≤ j → j < k → numberedName base j ∈ fsNames fs) ∧
      getUniqueFilename fs base ∉ fsNames fs :=
  uniqueFilename_props fs base

/-- A directory in which `Api.md` and its first numbered candidate are
both taken. -/
def c9fs : DirFS :=
  [(lit "Api.md", lit "a"), (lit "Api_1.md", lit "b"), (lit "other.md", lit "c")]

/-- Claim C9, witness: on `c9fs` the desired name `Api.md` exists, so the
theorem yields the first free numbered candidate (concretely `Api_2.md`),
which does not exist. -/
theorem c9_witness :
    (lit "Api.md") ∈ fsNames c9fs ∧
      (∃ k, 1 ≤ k ∧ getUniqueFilename c9fs (lit "Api.md") = numberedName (lit "Api.md") k ∧
        numberedName (lit "Api.md") k ∉ fsNames c9fs ∧
        ∀ j, 1 ≤ j → j < k → numberedName (lit "Api.md") j ∈ fsNames c9fs) ∧
      getUniqueFilename c9fs (lit "Api.md") ∉ fsNames c9fs ∧
      getUniqueFilename c9fs (lit "Api.md") = lit "Api_2.md" :=
  ⟨by decide, (c9_unique_filename c9fs (lit "Api.md")).2.1 (by decide),
    (c9_unique_filename c9fs (lit "Api.md")).2.2, by decide⟩

/-! ### Claim C4: duplicate resolution while routing -/

/-- Claim C4: when a renamed file collides with an existing file of the
same destination name, `rename_markdown_files` compares the
(namespace, python_object_type) frontmatter pairs: if they are equal the
incoming file is deleted and the existing file kept (exactly one
remains, no error); if they differ both survive, the incoming one under
the numbered name produced by `get_unique_filename`. -/
theorem c4_duplicate_policy (fs : DirFS) (oldName : Chars)
    (hnodup : (fsNames fs).Nodup)
    (cOld cNew : Chars)
    (hold : fsGet fs oldName = some cOld)
    (hchanged : oldName ≠ cleanFilename oldName)
    (hnew : fsGet fs (cleanFilename oldName) = some cNew)
    (idOld idNew : Chars × Chars)
    (hidOld : fmIdentity cOld = some idOld)
    (hidNew : fmIdentity cNew = some idNew) :
    (idOld = idNew →
      renameStep fs oldName = some (fsErase fs oldName) ∧
        fsGet (fsErase fs oldName) oldName = none ∧
        fsGet (fsErase fs oldName) (cleanFilename oldName) = some cNew) ∧
      (idOld ≠ idNew →
        ∃ fs' k, renameStep fs oldName = some fs' ∧ 1 ≤ k ∧
          fsGet fs' (cleanFilename oldName) = some cNew ∧
          fsGet fs' (numberedName (cleanFilename oldName) k) = some cOld ∧
          numberedName (cleanFilename oldName) k ∉ fsNames fs) := by
  have hne : cleanFilename oldName ≠ oldName := fun e => hchanged e.symm
  constructor
  · intro heq
    refine ⟨?_, fsGet_erase_self hnodup, ?_⟩
    · simp only [renameStep, hold, hnew, hidOld, hidNew]
      rw [if_neg hchanged, if_pos heq]
    · rw [fsGet_erase_ne hne]
      exact hnew
  · intro hneq
    have hmem : cleanFilename oldName ∈ fsNames fs := mem_fsNames_of_get hnew
    obtain ⟨k, hk1, hk2, hk3, _⟩ :=
      (uniqueFilename_props fs (cleanFilename oldName)).2.1 hmem
    refine ⟨fsErase fs oldName ++ [(numberedName (cleanFilename oldName) k, cOld)],
      k, ?_, hk1, ?_, ?_, hk3⟩
    · simp only [renameStep, hold, hnew, hidOld, hidNew]
      rw [if_neg hchanged, if_neg hneq, hk2]
    · have hnn : cleanFilename oldName ≠ numberedName (cleanFilename oldName) k :=
        fun e => hk3 (e ▸ hmem)
      rw [fsGet_append_single_ne hnn, fsGet_erase_ne hne]
      exact hnew
    · refine fsGet_append_single_self ?_
      intro hmem'
      exact hk3 (fsNames_erase_subset hmem')

/-- Incoming file content of the C4 witness with a selectable namespace. -/
def c4incoming (ns : String) : Chars :=
  lit "---\nnamespace: " ++ lit ns ++ lit "\npython_object_type: function\n---\nincoming body"

/-- Existing file content of the C4 witness. -/
def c4existing : Chars :=
  lit "---\nnamespace: wandb.plot\npython_object_type: function\n---\nexisting body"

/-- The colliding directory of the C4 witness: the file
`histogram_wandb.plot.md` must be renamed to `histogram.md`, which
already exists. -/
def c4fs (nsIncoming : String) : DirFS :=
  [(lit "histogram_wandb.plot.md", c4incoming nsIncoming),
   (lit "histogram.md", c4existing)]

/-- Claim C4, witness, applying the theorem on both sides of the policy:
with equal identity pairs the incoming file is deleted; with a different
namespace it is kept under the numbered name. -/
theorem c4_witness :
    (renameStep (c4fs "wandb.plot") (lit "histogram_wandb.plot.md") =
        some (fsErase (c4fs "wandb.plot") (lit "histogram_wandb.plot.md")) ∧
      fsGet (fsErase (c4fs "wandb.plot") (lit "histogram_wandb.plot.md"))
          (lit "histogram_wandb.plot.md") = none ∧
      fsGet (fsErase (c4fs "wandb.plot") (lit "histogram_wandb.plot.md"))
          (lit "histogram.md") = some c4existing) ∧
      (∃ fs' k,
        renameStep (c4fs "wandb.apis") (lit "histogram_wandb.plot.md") = some fs' ∧
          1 ≤ k ∧
          fsGet fs' (lit "histogram.md") = some c4existing ∧
          fsGet fs' (numberedName (lit "histogram.md") k) = some (c4incoming "wandb.apis") ∧
          numberedName (lit "histogram.md") k ∉ fsNames (c4fs "wandb.apis")) := by
  constructor
  · have h := (c4_duplicate_policy (c4fs "wandb.plot") (lit "histogram_wandb.plot.md")
      (by decide) (c4incoming "wandb.plot") c4existing (by decide) (by decide) (by decide)
      (lit "wandb.plot", lit "function") (lit "wandb.plot", lit "function")
      (by decide) (by decide)).1 rfl
    simpa using h
  · have h := (c4_duplicate_policy (c4fs "wandb.apis") (lit "histogram_wandb.plot.md")
      (by decide) (c4incoming "wandb.apis") c4existing (by decide) (by decide) (by decide)
      (lit "wandb.apis", lit "function") (lit "wandb.plot", lit "function")
      (by decide) (by decide)).2 (by decide)
    simpa using h

/-! ### Claim C5: landing pages must not overwrite existing indexes -/

/-- A destination tree whose `run` directory already carries a
hand-written index page. -/
def c5fs : DirFS := [(lit "python/run/_index.md", lit "OLD HAND-WRITTEN INDEX")]

/-- Claim C5 (code bug): `create_markdown_index_page` promises in its own
docstring to skip any directory that already contains an `_index.md`, and
the specification requires existing index pages to be left unchanged, but
the function opens every `_index.md` in write mode without an existence
check: walking a tree whose `run` directory already has an index page
replaces its content with the synthesized body. -/
theorem c5_overwrites_existing_index :
    fsGet (createMarkdownIndexPage (lit "0.19.0") (lit "python")
        [lit "python", lit "python/run"] c5fs) (lit "python/run/_index.md") =
      some (lit "---\ntitle: Run\nmodule: wandb.sdk\nweight: 30\n---\nTrack and manage experiments.\n") ∧
      fsGet (createMarkdownIndexPage (lit "0.19.0") (lit "python")
          [lit "python", lit "python/run"] c5fs) (lit "python/run/_index.md") ≠
        some (lit "OLD HAND-WRITTEN INDEX") := by
  decide

/-! ### Claim C6: the frontmatter category tag -/

/-- Claim C6, counterexample: for a source path matching none of the
substring rules the main renderer's `_type_key_string`
(generate_sdk_docs.py) falls back to the SDK tag
`object_type: python_sdk_actions`, not to the generic `api` tag the
specification names. -/
theorem c6_counterexample :
    typeKeyStringGen (lit "/tmp/plain.py") =
        some (lit "object_type: python_sdk_actions\n") ∧
      typeKeyStringGen (lit "/tmp/plain.py") ≠ some (lit "object_type: api\n") := by
  decide

/-- Claim C6, amended: both renderers choose the tag by an ordered list
of substring rules over the object's source path, first match wins; the
default for unmatched paths is the generic `api` tag only in
new_sdk_docs.py — generate_sdk_docs.py defaults to the SDK tag
`python_sdk_actions`, and its `launch` rule names the missing
configuration key `LAUNCH_API` (a crash, modelled as `none`). -/
theorem c6_first_match_rules (path : Chars) :
    typeKeyStringNew path =
        firstMatchTag [(lit "data_type", lit "object_type: data_type\n")]
          (lit "object_type: api\n") path ∧
      typeKeyStringGen path =
        firstMatchTagO
          [(lit "data_type", some (lit "object_type: python_sdk_data_type\n")),
           (lit "public", some (lit "object_type: public_apis_namespace\n")),
           (lit "launch", none),
           (lit "automations", some (lit "object_type: automations_namespace\n")),
           (lit "plot", some (lit "object_type: python_sdk_custom_charts\n"))]
          (some (lit "object_type: python_sdk_actions\n")) path := by
  exact ⟨rfl, rfl⟩

/-! ### Claim C7: export-list extraction never raises -/

/-- Claim C7: both export-list extractors are total functions of the file
content: an unreadable file (the caught read exception, input `none`)
yields the empty list, and a readable file without an `__all__`
assignment (the search fails) also yields the empty list. -/
theorem c7_extraction_total (file : Option Chars) :
    (file = none → getApiListFromInit file = [] ∧ getApiListFromPyi file = []) ∧
      (∀ content, file = some content →
        (searchAllInit content = none → getApiListFromInit file = []) ∧
          (searchAllPyi content = none → getApiListFromPyi file = [])) := by
  refine ⟨fun h => by subst h; exact ⟨rfl, rfl⟩, fun content h => ?_⟩
  subst h
  constructor
  · intro hs
    simp [getApiListFromInit, hs]
  · intro hs
    simp [getApiListFromPyi, hs]

/-- Claim C7, witness: unreadable input and a file with no `__all__`. -/
theorem c7_witness :
    (getApiListFromInit none = [] ∧ getApiListFromPyi none = []) ∧
      searchAllInit (lit "x = 1") = none ∧
      getApiListFromInit (some (lit "x = 1")) = [] :=
  ⟨(c7_extraction_total none).1 rfl, by decide,
    ((c7_extraction_total (some (lit "x = 1"))).2 (lit "x = 1") rfl).1 (by decide)⟩

/-! ### Claim C8: a backup precedes every docs.json rewrite -/

theorem updateDocs_trace_shape (missing : List Chars) (sections : List LangSection) :
    (updateDocsJsonWithMissingPages missing sections).1 = [] ∨
      (updateDocsJsonWithMissingPages missing sections).1 = [DocsEvent.backupWrite] ∨
      (updateDocsJsonWithMissingPages missing sections).1 =
        [DocsEvent.backupWrite, DocsEvent.docsRewrite] := by
  cases missing with
  | nil => exact Or.inl rfl
  | cons m ms =>
    unfold updateDocsJsonWithMissingPages
    cases sections.findIdx? (fun l => l.language = lit "en") with
    | none => exact Or.inr (Or.inl rfl)
    | some i =>
      dsimp only
      split
      · exact Or.inr (Or.inl rfl)
      · exact Or.inr (Or.inr rfl)

/-- Claim C8: whenever `update_docs_json_with_missing_pages` rewrites
docs.json (the rewrite event appears in its trace), the `.backup` copy is
the first event of the trace — a rewrite never happens without the
backup having been written before it. -/
theorem c8_backup_before_rewrite (missing : List Chars) (sections : List LangSection)
    (h : DocsEvent.docsRewrite ∈ (updateDocsJsonWithMissingPages missing sections).1) :
    (updateDocsJsonWithMissingPages missing sections).1.head? =
        some DocsEvent.backupWrite ∧
      ∃ t, (updateDocsJsonWithMissingPages missing sections).1 =
          DocsEvent.backupWrite :: t ∧ DocsEvent.docsRewrite ∈ t := by
  rcases updateDocs_trace_shape missing sections with he | he | he
  · rw [he] at h
    exact absurd h (by simp)
  · rw [he] at h
    exact absurd h (by simp)
  · rw [he]
    exact ⟨rfl, [DocsEvent.docsRewrite], rfl, by simp⟩

/-- A docs.json navigation fragment with an `Automations` group. -/
def c8docs : List LangSection :=
  [{ language := lit "en",
     tabs := [{ pages := PageList.cons (PageItem.group (lit "Reference")
        (PageList.cons (PageItem.group (lit "Automations")
          (PageList.cons (PageItem.page (lit "models/ref/python/automations/alpha"))
            (PageList.cons (PageItem.page (lit "models/ref/python/automations/zeta"))
              PageList.nil))) PageList.nil)) PageList.nil }] }]

/-- Claim C8, witness: a missing automations page is routed into its
group, the rewrite event occurs, and the theorem places the backup first. -/
theorem c8_witness :
    DocsEvent.docsRewrite ∈
        (updateDocsJsonWithMissingPages [lit "python/automations/beta.mdx"] c8docs).1 ∧
      (updateDocsJsonWithMissingPages [lit "python/automations/beta.mdx"] c8docs).1.head? =
        some DocsEvent.backupWrite :=
  ⟨by decide,
    (c8_backup_before_rewrite [lit "python/automations/beta.mdx"] c8docs (by decide)).1⟩

/-! ### Claim C10: totality of `extract_frontmatter` -/

/-- Test for the mapping case of a loaded frontmatter. -/
def isYamlMapping : YamlValue → Bool
  | .mapping _ => true
  | _ => false

/-- Claim C10 (code bug): `extract_frontmatter` promises a dictionary
(docstring: `Dictionary containing frontmatter data or empty dict`), and
it does return the parsed mapping for a `key: value` block and the empty
mapping for unreadable files, missing delimiters and empty blocks — but a
well-delimited block holding a bare YAML scalar makes
`yaml.safe_load(...) or {}` return that scalar (a string, not a dict),
which the function passes through. -/
theorem c10_scalar_frontmatter :
    extractFrontmatter (some (lit "---\nhello\n---\nbody")) =
        YamlValue.scalar (lit "hello") ∧
      isYamlMapping (extractFrontmatter (some (lit "---\nhello\n---\nbody"))) = false ∧
      extractFrontmatter none = YamlValue.mapping [] ∧
      extractFrontmatter (some (lit "no delimiter")) = YamlValue.mapping [] ∧
      extractFrontmatter (some (lit "---\nnever closed")) = YamlValue.mapping [] ∧
      extractFrontmatter (some (lit "---\n\n---\nbody")) = YamlValue.mapping [] ∧
      extractFrontmatter (some (lit "---\ntitle: Run\nnamespace: wandb.sdk\n---\nbody")) =
        YamlValue.mapping
          [(lit "title", lit "Run"), (lit "namespace", lit "wandb.sdk")] := by
  decide
